import Mathlib

/-!
Verification of the SentraIQ evidence pipeline (backend layers: hashing,
raw vault, auto-tagger, dojo mapper, telescope query engine, gap analyzer,
pack assembler) against its natural-language specification.

The Python source is shallowly embedded: pure helpers become Lean
functions, byte strings become `List Nat` (each element `< 256`),
Python floats become `ℚ`, datetimes become integer day counts, and the
stateful layers become explicit state-passing functions.  Recursions that
must evaluate inside the kernel are written with an explicit fuel
parameter (fuel is always instantiated with a length bound, so it never
changes the computed value).
-/

namespace SIQ

/-! ## Character and string helpers (modelling Python `str` operations) -/

/-- ASCII lowercase of a character, as `str.lower` acts on the ASCII range. -/
def lc (c : Char) : Char := c.toLower

/-- `s.lower()` as a character list. -/
def lowerChars (s : String) : List Char := s.data.map lc

/-- Python `\s` (ASCII whitespace as matched by `re` on ASCII text). -/
def isSpaceC (c : Char) : Bool :=
  c == ' ' || c == '\t' || c == '\n' || c == '\r' || c == '\x0b' || c == '\x0c'

/-- Does `hay` start with `needle`? -/
def startsL : List Char → List Char → Bool
  | [], _ => true
  | _ :: _, [] => false
  | a :: as, b :: bs => a == b && startsL as bs

/-- Python substring test `needle in hay`. -/
def hasSubL (needle : List Char) : List Char → Bool
  | [] => needle.isEmpty
  | c :: rest => startsL needle (c :: rest) || hasSubL needle rest

/-- Substring test on `String`s (`needle in hay`). -/
def hasSub (needle hay : String) : Bool := hasSubL needle.data hay.data

/-- Python `str.split()` (split on whitespace runs, dropping empties);
fuel-driven so that it reduces in the kernel. -/
def splitWsF : Nat → List Char → List (List Char)
  | 0, _ => []
  | _ + 1, [] => []
  | f + 1, c :: rest =>
    if isSpaceC c then splitWsF f rest
    else
      (c :: rest).takeWhile (fun d => !isSpaceC d) ::
        splitWsF f ((c :: rest).dropWhile (fun d => !isSpaceC d))

/-- Python `str.split()`. -/
def splitWs (l : List Char) : List (List Char) := splitWsF l.length l

/-- `", ".join(...)`-style joining. -/
def joinSep (sep : String) : List String → String
  | [] => ""
  | [s] => s
  | s :: rest => s ++ sep ++ joinSep sep rest

/-- A single-quote character as a string (used inside reproduced f-strings). -/
def sq : String := String.mk [Char.ofNat 39]

/-! ## SHA-256 (`hashlib.sha256`), implemented over byte lists

`backend/utils/hashing.py` uses `hashlib.sha256` both one-shot
(`calculate_content_hash`) and incrementally in 4096-byte chunks
(`calculate_file_hash`).  We implement the real algorithm so both code
paths can be modelled and compared. -/

/-- 2^32. -/
def M32 : Nat := 4294967296

/-- 32-bit modular addition. -/
def add32 (a b : Nat) : Nat := (a + b) % M32

/-- Right rotation of a 32-bit word. -/
def rotr32 (n x : Nat) : Nat := (x >>> n) + ((x % (2 ^ n)) <<< (32 - n))

/-- 32-bit complement. -/
def not32 (x : Nat) : Nat := x ^^^ (M32 - 1)

/-- SHA-256 `Ch`. -/
def chF (x y z : Nat) : Nat := (x &&& y) ^^^ (not32 x &&& z)

/-- SHA-256 `Maj`. -/
def majF (x y z : Nat) : Nat := (x &&& y) ^^^ (x &&& z) ^^^ (y &&& z)

/-- SHA-256 Σ₀. -/
def bsig0 (x : Nat) : Nat := rotr32 2 x ^^^ rotr32 13 x ^^^ rotr32 22 x

/-- SHA-256 Σ₁. -/
def bsig1 (x : Nat) : Nat := rotr32 6 x ^^^ rotr32 11 x ^^^ rotr32 25 x

/-- SHA-256 σ₀. -/
def ssig0 (x : Nat) : Nat := rotr32 7 x ^^^ rotr32 18 x ^^^ (x >>> 3)

/-- SHA-256 σ₁. -/
def ssig1 (x : Nat) : Nat := rotr32 17 x ^^^ rotr32 19 x ^^^ (x >>> 10)

/-- The 64 SHA-256 round constants. -/
def K256 : List Nat :=
  [1116352408, 1899447441, 3049323471, 3921009573, 961987163, 1508970993,
   2453635748, 2870763221, 3624381080, 310598401, 607225278, 1426881987,
   1925078388, 2162078206, 2614888103, 3248222580, 3835390401, 4022224774,
   264347078, 604807628, 770255983, 1249150122, 1555081692, 1996064986,
   2554220882, 2821834349, 2952996808, 3210313671, 3336571891, 3584528711,
   113926993, 338241895, 666307205, 773529912, 1294757372, 1396182291,
   1695183700, 1986661051, 2177026350, 2456956037, 2730485921, 2820302411,
   3259730800, 3345764771, 3516065817, 3600352804, 4094571909, 275423344,
   430227734, 506948616, 659060556, 883997877, 958139571, 1322822218,
   1537002063, 1747873779, 1955562222, 2024104815, 2227730452, 2361852424,
   2428436474, 2756734187, 3204031479, 3329325298]

/-- The SHA-256 initial hash value. -/
def H256 : List Nat :=
  [1779033703, 3144134277, 1013904242, 2773480762, 1359893119, 2600822924,
   528734635, 1541459225]

/-- Big-endian 4-byte group to 32-bit words. -/
def wordsOfBytes : List Nat → List Nat
  | b0 :: b1 :: b2 :: b3 :: rest => (((b0 * 256 + b1) * 256 + b2) * 256 + b3) :: wordsOfBytes rest
  | _ => []

/-- One message-schedule word from the previous 16. -/
def schedW : List Nat → Nat
  | w0 :: w1 :: _ :: _ :: _ :: _ :: _ :: _ :: _ :: w9 :: _ :: _ :: _ :: _ :: w14 :: _ =>
    add32 (add32 (ssig1 w14) w9) (add32 (ssig0 w1) w0)
  | _ => 0

/-- Extend the message schedule by `n` further words. -/
def schedExt : Nat → List Nat → List Nat
  | 0, _ => []
  | n + 1, win =>
    let nw := schedW win
    nw :: schedExt n (win.drop 1 ++ [nw])

/-- One SHA-256 round on the 8-word working state. -/
def rnd256 (st : List Nat) (k w : Nat) : List Nat :=
  match st with
  | [a, b, c, d, e, f, g, h] =>
    let t1 := add32 h (add32 (bsig1 e) (add32 (chF e f g) (add32 k w)))
    let t2 := add32 (bsig0 a) (majF a b c)
    [add32 t1 t2, a, b, c, add32 d t1, e, f, g]
  | other => other

/-- SHA-256 compression of one 64-byte block into the hash state. -/
def compress (h : List Nat) (block : List Nat) : List Nat :=
  let ws := wordsOfBytes block
  let w := ws ++ schedExt 48 ws
  let st := (List.zip K256 w).foldl (fun s kw => rnd256 s kw.1 kw.2) h
  List.zipWith add32 h st

/-- Big-endian 8-byte encoding of a number. -/
def beBytes8 (n : Nat) : List Nat :=
  [(n >>> 56) % 256, (n >>> 48) % 256, (n >>> 40) % 256, (n >>> 32) % 256,
   (n >>> 24) % 256, (n >>> 16) % 256, (n >>> 8) % 256, n % 256]

/-- Big-endian 4-byte encoding of a 32-bit word. -/
def beBytes4 (n : Nat) : List Nat :=
  [(n >>> 24) % 256, (n >>> 16) % 256, (n >>> 8) % 256, n % 256]

/-- The SHA-256 padding tail for a message of `len` bytes. -/
def padTail (len : Nat) : List Nat :=
  128 :: List.replicate ((119 - len % 64) % 64) 0 ++ beBytes8 (8 * len)

/-- The padded SHA-256 message (length a multiple of 64). -/
def padMsg (m : List Nat) : List Nat := m ++ padTail m.length

/-- Split a list into chunks of `n` (fuel-driven; fuel bounds the number of
chunks and is instantiated with the list length). -/
def chunksF {α : Type} : Nat → Nat → List α → List (List α)
  | _, _, [] => []
  | 0, _, c :: cs => [c :: cs]
  | f + 1, n, c :: cs => (c :: cs).take n :: chunksF f n ((c :: cs).drop n)

/-- Split a list into chunks of `n` elements (last chunk possibly short). -/
def chunks {α : Type} (n : Nat) (l : List α) : List (List α) := chunksF l.length n l

/-- One-shot SHA-256 digest of a byte string (the semantics of
`hashlib.sha256(data).digest()`). -/
def sha256Bytes (m : List Nat) : List Nat :=
  (((chunks 64 (padMsg m)).foldl compress H256).map beBytes4).flatten

/-- Lowercase hex digit. -/
def hexChar (n : Nat) : Char := if n < 10 then Char.ofNat (48 + n) else Char.ofNat (87 + n)

/-- Two-character lowercase hex of a byte. -/
def byteHexChars (b : Nat) : List Char := [hexChar (b / 16), hexChar (b % 16)]

/-- `hashlib.sha256(data).hexdigest()`. -/
def sha256Hex (m : List Nat) : String := String.mk (((sha256Bytes m).map byteHexChars).flatten)

/-! ### Incremental SHA-256 (the `hashlib` object fed with `update`)

`calculate_file_hash` feeds the file to a `hashlib.sha256()` object in
4096-byte blocks.  We model the streaming object faithfully: a processed
hash state, a pending buffer of fewer than 64 bytes, and the running
message length; `update` absorbs every full 64-byte block. -/

/-- Streaming SHA-256 state: processed chaining value, pending bytes,
total message length so far. -/
structure Sha256Ctx where
  h : List Nat
  buf : List Nat
  len : Nat
deriving DecidableEq

/-- A fresh `hashlib.sha256()` object. -/
def ctxInit : Sha256Ctx := ⟨H256, [], 0⟩

/-- Absorb all complete 64-byte blocks from `l` into the hash state
(fuel-driven; fuel is a bound on the byte count). -/
def eatBlocksF : Nat → List Nat → List Nat → List Nat × List Nat
  | 0, h, l => (h, l)
  | f + 1, h, l => if 64 ≤ l.length then eatBlocksF f (compress h (l.take 64)) (l.drop 64) else (h, l)

/-- `ctx.update(d)`. -/
def ctxUpdate (c : Sha256Ctx) (d : List Nat) : Sha256Ctx :=
  let t := c.buf ++ d
  let r := eatBlocksF t.length c.h t
  ⟨r.1, r.2, c.len + d.length⟩

/-- `ctx.digest()`: pad the pending buffer and produce the digest. -/
def ctxDigest (c : Sha256Ctx) : List Nat :=
  (((chunks 64 (c.buf ++ padTail c.len)).foldl compress c.h).map beBytes4).flatten

/-- `ctx.hexdigest()`. -/
def ctxHexdigest (c : Sha256Ctx) : String :=
  String.mk (((ctxDigest c).map byteHexChars).flatten)

/-! ## `backend/utils/hashing.py` -/

/-- `calculate_file_hash`: read the file in 4096-byte chunks, feeding each
to an incremental SHA-256, and return the hex digest.  `fileBytes` is the
content of the file on disk. -/
def calculate_file_hash (fileBytes : List Nat) : String :=
  ctxHexdigest ((chunks 4096 fileBytes).foldl ctxUpdate ctxInit)

/-- `calculate_content_hash` applied to a `bytes` value: one-shot SHA-256
hex digest of the buffer. -/
def calculate_content_hash (content : List Nat) : String := sha256Hex content

/-! ## UTF-8 (`bytes.decode('utf-8', errors='ignore')` and `str.encode('utf-8')`)

`ingest_log` decodes the submitted bytes with `errors='ignore'` and hashes
the re-encoded result, so the lossy decoder must be modelled.  CPython
skips the maximal valid subpart of an invalid sequence (W3C/Unicode
recommended practice): an invalid leading byte is skipped alone; a valid
prefix of a multi-byte sequence is skipped up to (not including) the first
offending byte. -/

/-- Is `b` a UTF-8 continuation byte? -/
def isContB (b : Nat) : Bool := 128 ≤ b && b ≤ 191

/-- One step of the CPython UTF-8 decoder: the code point produced (if the
sequence at the head is valid) and the number of bytes consumed (≥ 1 on
nonempty input). -/
def decStep : List Nat → Option Nat × Nat
  | [] => (none, 0)
  | b :: rest =>
    if b ≤ 0x7F then (some b, 1)
    else if b < 0xC2 then (none, 1)
    else if b ≤ 0xDF then
      match rest with
      | c1 :: _ =>
        if isContB c1 then (some ((b - 0xC0) * 0x40 + (c1 - 0x80)), 2) else (none, 1)
      | [] => (none, 1)
    else if b ≤ 0xEF then
      let lo := if b = 0xE0 then 0xA0 else 0x80
      let hi := if b = 0xED then 0x9F else 0xBF
      match rest with
      | c1 :: rest2 =>
        if lo ≤ c1 && c1 ≤ hi then
          match rest2 with
          | c2 :: _ =>
            if isContB c2 then
              (some ((b - 0xE0) * 0x1000 + (c1 - 0x80) * 0x40 + (c2 - 0x80)), 3)
            else (none, 2)
          | [] => (none, 2)
        else (none, 1)
      | [] => (none, 1)
    else if b ≤ 0xF4 then
      let lo := if b = 0xF0 then 0x90 else 0x80
      let hi := if b = 0xF4 then 0x8F else 0xBF
      match rest with
      | c1 :: rest2 =>
        if lo ≤ c1 && c1 ≤ hi then
          match rest2 with
          | c2 :: rest3 =>
            if isContB c2 then
              match rest3 with
              | c3 :: _ =>
                if isContB c3 then
                  (some ((b - 0xF0) * 0x40000 + (c1 - 0x80) * 0x1000 +
                         (c2 - 0x80) * 0x40 + (c3 - 0x80)), 4)
                else (none, 3)
              | [] => (none, 3)
            else (none, 2)
          | [] => (none, 2)
        else (none, 1)
      | [] => (none, 1)
    else (none, 1)

/-- `bytes.decode('utf-8', errors='ignore')` as a code-point list
(fuel-driven; fuel bounds the byte count). -/
def decodeIgnoreF : Nat → List Nat → List Nat
  | 0, _ => []
  | _ + 1, [] => []
  | f + 1, b :: rest =>
    let s := decStep (b :: rest)
    (match s.1 with
     | some cp => [cp]
     | none => []) ++ decodeIgnoreF f ((b :: rest).drop s.2)

/-- `bytes.decode('utf-8', errors='ignore')`. -/
def decodeIgnore (l : List Nat) : List Nat := decodeIgnoreF l.length l

/-- Is the byte string strictly valid UTF-8 (decoding never skips)? -/
def validUtf8F : Nat → List Nat → Bool
  | 0, l => l.isEmpty
  | _ + 1, [] => true
  | f + 1, b :: rest =>
    match decStep (b :: rest) with
    | (some _, n) => validUtf8F f ((b :: rest).drop n)
    | (none, _) => false

/-- Is the byte string strictly valid UTF-8? -/
def validUtf8 (l : List Nat) : Bool := validUtf8F l.length l

/-- UTF-8 encoding of one Unicode scalar value. -/
def encodeCp (c : Nat) : List Nat :=
  if c < 0x80 then [c]
  else if c < 0x800 then [0xC0 + c / 0x40, 0x80 + c % 0x40]
  else if c < 0x10000 then [0xE0 + c / 0x1000, 0x80 + (c / 0x40) % 0x40, 0x80 + c % 0x40]
  else [0xF0 + c / 0x40000, 0x80 + (c / 0x1000) % 0x40, 0x80 + (c / 0x40) % 0x40, 0x80 + c % 0x40]

/-- `str.encode('utf-8')` over a code-point list. -/
def encodeUtf8 : List Nat → List Nat
  | [] => []
  | c :: cs => encodeCp c ++ encodeUtf8 cs

/-- The UTF-8 bytes of a Lean string (every `Char` is a Unicode scalar). -/
def strBytes (s : String) : List Nat := encodeUtf8 (s.data.map Char.toNat)

/-- The hash state absorbed from a byte stream: `eatBlocksF` at its
canonical fuel (a pure view of where the streaming context stands after
feeding `l`). -/
def absorb (h l : List Nat) : List Nat × List Nat := eatBlocksF l.length h l

/-- The streaming context reached after feeding the message `m` from a
fresh object. -/
def ctxOf (m : List Nat) : Sha256Ctx := ⟨(absorb H256 m).1, (absorb H256 m).2, m.length⟩

/-! ## `backend/config.py`: `settings.CONTROL_MAPPINGS` -/

/-- One entry of `settings.CONTROL_MAPPINGS`. -/
structure ControlInfo where
  controlId : String
  cname : String
  descr : String
  keywords : List String
deriving DecidableEq

/-- `settings.CONTROL_MAPPINGS`, in dict insertion order
(MFA, ACCESS_CONTROL, ENCRYPTION, AUDIT_LOGGING). -/
def CONTROL_MAPPINGS : List ControlInfo :=
  [⟨"AC-001", "Multi-Factor Authentication", "Enforce MFA for all SWIFT terminal access",
    ["mfa", "two-factor", "2fa", "authentication", "login"]⟩,
   ⟨"AC-002", "Access Control", "Restrict access to authorized personnel only",
    ["access", "authorization", "permission", "denied", "failed"]⟩,
   ⟨"CR-001", "Data Encryption", "Encrypt all payment data in transit and at rest",
    ["encryption", "tls", "ssl", "encrypted", "cipher"]⟩,
   ⟨"AU-001", "Audit Logging", "Maintain comprehensive audit logs",
    ["audit", "log", "record", "event", "activity"]⟩]

/-! ## `backend/layers/control_library.py`

`get_all_controls()` merges `SWIFT_CONTROLS` then `SOC2_CONTROLS` (disjoint
keys, so dict insertion order is SWIFT entries followed by SOC2 entries).
Only the fields the embedded layers read are transcribed: id, name,
keywords, assessment questions. -/

/-- One catalog control (the fields read by the auto-tagger and gap
analyzer). -/
structure CatControl where
  cid : String
  cname : String
  keywords : List String
  questions : List String
deriving DecidableEq

/-- `get_all_controls()` as an ordered association list. -/
def allControls : List CatControl :=
  [⟨"SWIFT-1.1", "SWIFT Environment Protection",
    ["swift", "environment", "protection", "secure zone", "isolation"],
    ["Is the SWIFT environment protected and isolated?",
     "Are secure zones properly configured?",
     "Is environment access restricted and monitored?"]⟩,
   ⟨"SWIFT-1.2", "Operating System Privileged Account Control",
    ["privileged", "account", "operating system", "access control", "admin"],
    ["Are privileged accounts controlled and monitored?",
     "Is privileged access reviewed regularly?",
     "Are privileged account activities logged?"]⟩,
   ⟨"SWIFT-2.1", "Internal Data Flow Security",
    ["data flow", "internal", "network", "security", "communication"],
    ["Is internal data flow secured?",
     "Are network communications encrypted?",
     "Is data flow monitored and logged?"]⟩,
   ⟨"SWIFT-2.7", "Vulnerability Scanning",
    ["vulnerability", "scanning", "tenable", "nessus", "penetration", "security_test"],
    ["Are vulnerability scans performed quarterly?",
     "Are critical vulnerabilities remediated within 30 days?",
     "Are scan results reviewed and documented?"]⟩,
   ⟨"SWIFT-2.8", "Critical Outsourced Service Provider Selection",
    ["service provider", "outsourcing", "vendor", "selection", "management"],
    ["Are service providers selected based on security criteria?",
     "Are service provider controls reviewed?",
     "Are service provider agreements documented?"]⟩,
   ⟨"SWIFT-3.1", "Physical Security",
    ["physical", "security", "data center", "server room", "access control", "connector"],
    ["Are physical access controls implemented?",
     "Is the data center/server room secured?",
     "Are physical access logs maintained?",
     "Is connector server room secured (if applicable)?"]⟩,
   ⟨"SWIFT-1.3", "Virtualisation Platform Protection",
    ["virtualisation", "hypervisor", "vm", "virtual machine", "platform"],
    ["Are hypervisors hardened and secured?",
     "Is virtualisation platform access restricted?",
     "Are VM configurations reviewed regularly?"]⟩,
   ⟨"SWIFT-1.4", "Restriction of Internet Access",
    ["internet", "access", "restrict", "network", "firewall"],
    ["Is internet access to SWIFT environment restricted?",
     "Are firewall rules documented and reviewed?",
     "Is network segmentation enforced?"]⟩,
   ⟨"SWIFT-1.5", "Customer Environment Protection (Vendor Managed)",
    ["vendor", "managed", "service provider", "customer environment", "connector", "middleware"],
    ["Are vendor-managed services properly secured?",
     "Is customer environment isolated?",
     "Are vendor controls reviewed?",
     "Is connector/middleware environment protected?"]⟩,
   ⟨"SWIFT-2.2", "Security Updates",
    ["security", "updates", "patches", "vulnerability", "patching"],
    ["Are security updates applied promptly?",
     "Is a patch management process in place?",
     "Are critical patches applied within SLA?"]⟩,
   ⟨"SWIFT-2.3", "System Hardening",
    ["hardening", "baseline", "configuration", "security", "system"],
    ["Are systems hardened according to baselines?",
     "Are hardening configurations documented?",
     "Are hardening checks performed regularly?"]⟩,
   ⟨"SWIFT-2.4A", "Back Office Data Flow Security",
    ["back office", "data flow", "integration", "secure", "communication"],
    ["Is data flow to back office systems secured?",
     "Are integration points documented?",
     "Is data flow monitored?"]⟩,
   ⟨"SWIFT-2.5A", "External Transmission Data Protection",
    ["transmission", "encryption", "tls", "ssl", "data protection", "external"],
    ["Is data encrypted in transit?",
     "Are secure protocols used (TLS/SSL)?",
     "Is certificate management in place?"]⟩,
   ⟨"SWIFT-2.6", "Operator Session Confidentiality",
    ["operator", "session", "confidentiality", "encryption", "gui", "browser"],
    ["Are operator sessions encrypted?",
     "Is session management implemented?",
     "Are session logs maintained?"]⟩,
   ⟨"SWIFT-2.9", "Transaction Business Controls",
    ["transaction", "business", "controls", "validation", "authorization"],
    ["Are transaction controls implemented?",
     "Is transaction validation performed?",
     "Are business rules documented?"]⟩,
   ⟨"SWIFT-2.10", "Application Hardening",
    ["application", "hardening", "software", "configuration", "security"],
    ["Is SWIFT application hardened?",
     "Are application configurations secure?",
     "Are application updates applied?"]⟩,
   ⟨"SWIFT-2.11A", "RMA Business Controls",
    ["rma", "relationship", "management", "business", "controls"],
    ["Are RMA business controls implemented?",
     "Is RMA access controlled?",
     "Are RMA transactions logged?"]⟩,
   ⟨"SWIFT-4.1", "Password Policy",
    ["password", "policy", "authentication", "access", "security"],
    ["Is password policy enforced?",
     "Are password requirements documented?",
     "Is password complexity enforced?"]⟩,
   ⟨"SWIFT-4.2", "Multi-Factor Authentication",
    ["mfa", "multi-factor", "authentication", "2fa", "token", "portal"],
    ["Is MFA enforced for SWIFT access?",
     "Are MFA tokens managed securely?",
     "Are MFA failures monitored?"]⟩,
   ⟨"SWIFT-5.1", "Logical Access Control",
    ["logical", "access", "control", "authorization", "permission"],
    ["Are logical access controls implemented?",
     "Is access reviewed regularly?",
     "Are access permissions documented?"]⟩,
   ⟨"SWIFT-5.2", "Token Management",
    ["token", "management", "authentication", "hardware", "mfa"],
    ["Are tokens managed securely?",
     "Is token inventory maintained?",
     "Are token assignments tracked?"]⟩,
   ⟨"SWIFT-5.3A", "Personnel Vetting",
    ["personnel", "vetting", "background", "check", "screening"],
    ["Are personnel vetted before access?",
     "Is vetting process documented?",
     "Are vetting records maintained?"]⟩,
   ⟨"SWIFT-5.4", "Physical and Logical Data Protection",
    ["data", "protection", "physical", "logical", "encryption"],
    ["Is data protected at rest?",
     "Is data protected in transit?",
     "Are encryption keys managed securely?"]⟩,
   ⟨"SWIFT-6.1", "Malware Protection",
    ["malware", "antivirus", "protection", "security", "threat"],
    ["Is malware protection implemented?",
     "Are antivirus signatures updated?",
     "Are malware incidents monitored?"]⟩,
   ⟨"SWIFT-6.2", "Software Integrity",
    ["software", "integrity", "verification", "signing", "checksum"],
    ["Is software integrity verified?",
     "Are software signatures checked?",
     "Is software tampering detected?"]⟩,
   ⟨"SWIFT-6.3", "Database Integrity",
    ["database", "integrity", "backup", "recovery", "data"],
    ["Is database integrity maintained?",
     "Are database backups performed?",
     "Is database recovery tested?"]⟩,
   ⟨"SWIFT-6.4", "Logging and Monitoring",
    ["logging", "monitoring", "log", "audit", "siem"],
    ["Are all activities logged?",
     "Is monitoring implemented?",
     "Are logs retained appropriately?"]⟩,
   ⟨"SWIFT-6.5A", "Intrusion Detection",
    ["intrusion", "detection", "ids", "ips", "edr", "threat"],
    ["Is intrusion detection implemented?",
     "Are intrusions detected promptly?",
     "Are intrusion alerts reviewed?"]⟩,
   ⟨"SWIFT-7.1", "Cyber Incident Response Planning",
    ["incident", "response", "planning", "cyber", "security"],
    ["Is incident response plan documented?",
     "Is incident response team defined?",
     "Are incident response procedures tested?"]⟩,
   ⟨"SWIFT-7.2", "Security Training and Awareness",
    ["training", "awareness", "security", "education", "staff"],
    ["Is security training provided?",
     "Are staff aware of security policies?",
     "Is training completion tracked?"]⟩,
   ⟨"SWIFT-7.3A", "Penetration Testing",
    ["penetration", "testing", "pentest", "security", "assessment", "endpoints", "user pc"],
    ["Is penetration testing performed?",
     "Are test results reviewed?",
     "Are findings remediated?",
     "Is user PC security tested (for Architecture B)?"]⟩,
   ⟨"SWIFT-7.4A", "Scenario Based Risk Assessment",
    ["risk", "assessment", "scenario", "threat", "analysis"],
    ["Are risk assessments performed?",
     "Are scenarios documented?",
     "Are risks mitigated?"]⟩,
   ⟨"SOC2-CC6.1", "Logical Access Controls",
    ["access", "authentication", "authorization", "login", "permission"],
    ["Are logical access controls implemented?",
     "Is access reviewed quarterly?",
     "Are access attempts logged and monitored?"]⟩,
   ⟨"SOC2-CC6.2", "Multi-Factor Authentication",
    ["mfa", "two-factor", "2fa", "authentication", "privileged"],
    ["Is MFA required for privileged access?",
     "Are MFA failures monitored?",
     "Is MFA policy documented?"]⟩,
   ⟨"SOC2-CC7.1", "System Monitoring",
    ["monitoring", "log", "audit", "detection", "anomaly", "siem"],
    ["Are systems monitored 24/7?",
     "Are anomalies detected and alerted?",
     "Are monitoring logs retained?"]⟩,
   ⟨"SOC2-CC8.1", "Change Management",
    ["change", "management", "approval", "deployment", "version"],
    ["Are changes approved before implementation?",
     "Are changes tested?",
     "Are change logs maintained?"]⟩]

/-! ## `backend/layers/auto_tagger.py` -/

/-- One auto-tag entry (the dicts built by `AutoTagger`). -/
structure Tag where
  cid : String
  cname : String
  reasoning : String
  confidence : ℚ
  method : String
deriving DecidableEq

/-- `AutoTagger.SOURCE_TO_CONTROL_MAP`, in dict insertion order. -/
def SOURCE_TO_CONTROL_MAP : List (String × List String) :=
  [("tenable", ["SWIFT-2.7", "SOC2-CC7.1"]),
   ("nessus", ["SWIFT-2.7", "SOC2-CC7.1"]),
   ("qualys", ["SWIFT-2.7", "SOC2-CC7.1"]),
   ("rapid7", ["SWIFT-2.7", "SOC2-CC7.1"]),
   ("duo", ["SWIFT-2.8", "SOC2-CC6.2"]),
   ("okta", ["SWIFT-2.8", "SOC2-CC6.2"]),
   ("auth0", ["SWIFT-2.8", "SOC2-CC6.2"]),
   ("azure ad", ["SWIFT-2.8", "SOC2-CC6.2"]),
   ("splunk", ["SWIFT-3.1", "SOC2-CC7.1"]),
   ("qradar", ["SWIFT-3.1", "SOC2-CC7.1"]),
   ("arcsight", ["SWIFT-3.1", "SOC2-CC7.1"]),
   ("logrhythm", ["SWIFT-3.1", "SOC2-CC7.1"]),
   ("firewall", ["SWIFT-1.1", "SWIFT-1.2"]),
   ("palo alto", ["SWIFT-1.1", "SWIFT-1.2"]),
   ("fortinet", ["SWIFT-1.1", "SWIFT-1.2"]),
   ("cisco", ["SWIFT-1.1", "SWIFT-1.2"]),
   ("swift", ["SWIFT-2.8", "SWIFT-3.1"]),
   ("alliance", ["SWIFT-2.8", "SWIFT-3.1"])]

/-- One entry of `AutoTagger.CONTENT_PATTERNS`: the regex text (used inside
the reasoning string) and its two literal fragments around the `.*`. -/
structure CPat where
  text : String
  p1 : String
  p2 : String
  cids : List String
deriving DecidableEq

/-- `AutoTagger.CONTENT_PATTERNS`, in dict insertion order.  Every pattern
in the source is of the shape `lit1.*lit2`. -/
def CONTENT_PATTERNS : List CPat :=
  [⟨"vulnerability.*scan", "vulnerability", "scan", ["SWIFT-2.7"]⟩,
   ⟨"penetration.*test", "penetration", "test", ["SWIFT-2.7"]⟩,
   ⟨"mfa.*challenge", "mfa", "challenge", ["SWIFT-2.8", "SOC2-CC6.2"]⟩,
   ⟨"two.*factor", "two", "factor", ["SWIFT-2.8", "SOC2-CC6.2"]⟩,
   ⟨"authentication.*success", "authentication", "success", ["SWIFT-2.8", "SOC2-CC6.2"]⟩,
   ⟨"audit.*log", "audit", "log", ["SWIFT-3.1", "SOC2-CC7.1"]⟩,
   ⟨"access.*denied", "access", "denied", ["SWIFT-2.1", "SOC2-CC6.1"]⟩,
   ⟨"password.*policy", "password", "policy", ["SWIFT-2.1", "SOC2-CC6.1"]⟩,
   ⟨"network.*segment", "network", "segment", ["SWIFT-1.1", "SWIFT-1.2"]⟩,
   ⟨"firewall.*rule", "firewall", "rule", ["SWIFT-1.1", "SWIFT-1.2"]⟩]

/-- Does the fragment `p` occur starting at some position of `l` such that
no newline appears strictly before that position?  (Helper for `.*`, which
does not match `\n`.) -/
def matchGapTo (p : List Char) : List Char → Bool
  | [] => startsL p []
  | c :: rest => startsL p (c :: rest) || (c != '\n' && matchGapTo p rest)

/-- `re.search(p1 + ".*" + p2, l)` for literal fragments `p1`, `p2`:
`p1` occurs somewhere, followed (with no intervening newline) by `p2`. -/
def searchPat (p1 p2 : List Char) : List Char → Bool
  | [] => startsL p1 [] && matchGapTo p2 []
  | c :: rest =>
    (startsL p1 (c :: rest) && matchGapTo p2 ((c :: rest).drop p1.length)) ||
      searchPat p1 p2 rest

/-- Lookup of a control id in `get_all_controls()` (`control_id in
all_controls` followed by `all_controls[control_id]`). -/
def findCat (cid : String) : Option CatControl := allControls.find? (fun c => c.cid == cid)

/-- Keep only the first entry per control id (`seen` set + append loop used
in both `auto_tag_from_source` and `auto_tag_from_content`). -/
def dedupTagsGo (seen : List String) : List Tag → List Tag
  | [] => []
  | t :: ts => if seen.contains t.cid then dedupTagsGo seen ts else t :: dedupTagsGo (t.cid :: seen) ts

/-- Duplicate removal keeping first occurrences. -/
def dedupTags (l : List Tag) : List Tag := dedupTagsGo [] l

/-- The source-pass matches of `auto_tag_from_source`, before duplicate
removal. -/
def rawSourceTags (source filename : String) : List Tag :=
  let combined := lowerChars source ++ ' ' :: lowerChars filename
  SOURCE_TO_CONTROL_MAP.flatMap (fun kv =>
    if hasSubL kv.1.data combined then
      kv.2.filterMap (fun cid =>
        (findCat cid).map (fun c =>
          ⟨cid, c.cname,
           "Source " ++ sq ++ source ++ sq ++ " matches known control source pattern " ++
             sq ++ kv.1 ++ sq,
           4/5, "source_heuristic"⟩))
    else [])

/-- `AutoTagger.auto_tag_from_source`. -/
def auto_tag_from_source (source filename : String) : List Tag :=
  dedupTags (rawSourceTags source filename)

/-- The content-pass matches of `auto_tag_from_content` (pattern scan, then
keyword-density scan), before duplicate removal. -/
def rawContentTags (content : String) : List Tag :=
  let cl := (lowerChars content).take 5000
  let patTags := CONTENT_PATTERNS.flatMap (fun p =>
    if searchPat p.p1.data p.p2.data cl then
      p.cids.filterMap (fun cid =>
        (findCat cid).map (fun c =>
          ⟨cid, c.cname,
           "Content matches pattern " ++ sq ++ p.text ++ sq ++ " indicating " ++ c.cname,
           7/10, "content_heuristic"⟩))
    else [])
  let kwTags := allControls.filterMap (fun c =>
    let hits := c.keywords.filter (fun kw => hasSubL (lowerChars kw) cl)
    if 2 ≤ hits.length then
      some ⟨c.cid, c.cname,
        "Content contains " ++ toString hits.length ++ " keywords matching " ++ c.cname ++
          ": " ++ joinSep ", " (hits.take 3),
        min (3/5 + (hits.length : ℚ) * (1/20)) (9/10), "keyword_match"⟩
    else none)
  patTags ++ kwTags

/-- `AutoTagger.auto_tag_from_content`. -/
def auto_tag_from_content (content : String) : List Tag :=
  dedupTags (rawContentTags content)

/-- Merging of one tag into the accumulated `control_map`: on a duplicate
control id, concatenate the reasoning strings, keep the max confidence and
concatenate the method labels; otherwise append (dict insertion order). -/
def mergeTag (e t : Tag) : Tag :=
  ⟨e.cid, e.cname, e.reasoning ++ "; " ++ t.reasoning, max e.confidence t.confidence,
   e.method ++ "+" ++ t.method⟩

/-- One step of the `auto_tag` merge loop. -/
def mergeInto (m : List Tag) (t : Tag) : List Tag :=
  if m.any (fun e => e.cid == t.cid) then
    m.map (fun e => if e.cid == t.cid then mergeTag e t else e)
  else m ++ [t]

/-- `AutoTagger.auto_tag`: source pass, then (when content is nonempty) the
content pass, merged by control id. -/
def auto_tag (source filename content : String) : List Tag :=
  let tags := auto_tag_from_source source filename ++
    (if content = "" then [] else auto_tag_from_content content)
  tags.foldl mergeInto []

/-- First entry for a control id (`control_map[cid]`). -/
def lookupTag (cid : String) (l : List Tag) : Option Tag := l.find? (fun t => t.cid == cid)

/-! ## `backend/layers/dojo_mapper.py`

`_extract_keywords_from_log` runs nine fixed regexes over the lowercased
content with `re.findall`.  Each regex is either an ordered alternation of
literal fragments (with one `[\-\s]` character class) or a
`key[:\s]+(\w+)` capture.  The scanners below implement exactly those two
shapes with `re`'s leftmost-first semantics: try a match at each position,
emit the group, resume after the match, otherwise advance one character. -/

/-- A piece of an alternation branch: a literal character or the `[\-\s]`
class. -/
inductive APc
  | lit (c : Char)
  | dashOrSpace
deriving DecidableEq

/-- The branch made of the literal fragment `s`. -/
def litsOf (s : String) : List APc := s.data.map APc.lit

/-- Match one branch at the current position, returning the consumed
characters and the rest. -/
def matchAPcs : List APc → List Char → Option (List Char × List Char)
  | [], l => some ([], l)
  | _ :: _, [] => none
  | p :: ps, c :: cs =>
    let ok := match p with
      | APc.lit ch => c == ch
      | APc.dashOrSpace => c == '-' || isSpaceC c
    if ok then (matchAPcs ps cs).map (fun mr => (c :: mr.1, mr.2)) else none

/-- First branch that matches at the current position (`re` alternation is
ordered). -/
def tryAlts : List (List APc) → List Char → Option (List Char × List Char)
  | [], _ => none
  | a :: as, l =>
    match matchAPcs a l with
    | some r => some r
    | none => tryAlts as l

/-- `re.findall` for an alternation of literal branches: scan left to
right, emit each match, resume after it (fuel bounds the scan length). -/
def scanAltsF : Nat → List (List APc) → List Char → List String
  | 0, _, _ => []
  | _ + 1, _, [] => []
  | f + 1, alts, c :: rest =>
    match tryAlts alts (c :: rest) with
    | some mr => String.mk mr.1 :: scanAltsF f alts mr.2
    | none => scanAltsF f alts rest

/-- Consume the literal `key` from the head of `l`. -/
def stripLit : List Char → List Char → Option (List Char)
  | [], l => some l
  | _ :: _, [] => none
  | c :: cs, d :: ds => if d == c then stripLit cs ds else none

/-- A `[:\s]` character. -/
def isCS (c : Char) : Bool := c == ':' || isSpaceC c

/-- Python `\w` on ASCII text. -/
def isWordC (c : Char) : Bool := c.isAlphanum || c == '_'

/-- Match `key1 (\s* key2)? [:\s]+ (\w+)` at the current position,
returning the captured word and the rest. -/
def matchKV (key1 : List Char) (key2 : Option (List Char)) (l : List Char) :
    Option (List Char × List Char) :=
  match stripLit key1 l with
  | none => none
  | some r1 =>
    let r2? := match key2 with
      | none => some r1
      | some k2 => stripLit k2 (r1.dropWhile isSpaceC)
    match r2? with
    | none => none
    | some r2 =>
      match r2 with
      | [] => none
      | c :: rest =>
        if isCS c then
          let r3 := rest.dropWhile isCS
          let cap := r3.takeWhile isWordC
          if cap.isEmpty then none else some (cap, r3.dropWhile isWordC)
        else none

/-- `re.findall` for a `key[:\s]+(\w+)` pattern (fuel bounds the scan
length). -/
def scanKVF : Nat → List Char → Option (List Char) → List Char → List String
  | 0, _, _, _ => []
  | _ + 1, _, _, [] => []
  | f + 1, k1, k2, c :: rest =>
    match matchKV k1 k2 (c :: rest) with
    | some mr => String.mk mr.1 :: scanKVF f k1 k2 mr.2
    | none => scanKVF f k1 k2 rest

/-- The `mfa` pattern `(mfa|two[\-\s]factor|2fa|authentication)`. -/
def mfaAlts : List (List APc) :=
  [litsOf "mfa", litsOf "two" ++ [APc.dashOrSpace] ++ litsOf "factor", litsOf "2fa",
   litsOf "authentication"]

/-- The `failed` pattern `(failed|failure|denied|rejected|error)`. -/
def failedAlts : List (List APc) :=
  [litsOf "failed", litsOf "failure", litsOf "denied", litsOf "rejected", litsOf "error"]

/-- The `success` pattern `(success|successful|approved|granted)`. -/
def successAlts : List (List APc) :=
  [litsOf "success", litsOf "successful", litsOf "approved", litsOf "granted"]

/-- The `encryption` pattern `(encrypt|tls|ssl|cipher)`. -/
def encryptionAlts : List (List APc) :=
  [litsOf "encrypt", litsOf "tls", litsOf "ssl", litsOf "cipher"]

/-- The `access` pattern `(access|login|logon|authentication)`. -/
def accessAlts : List (List APc) :=
  [litsOf "access", litsOf "login", litsOf "logon", litsOf "authentication"]

/-- Keep the first occurrence of each string.  The source applies
`list(set(keywords))`, whose iteration order is unspecified; every
downstream consumer proved about here (the fallback scorer) is insensitive
to the order, so first-occurrence order is a sound representative. -/
def dedupStrGo (seen : List String) : List String → List String
  | [] => []
  | s :: ss => if seen.contains s then dedupStrGo seen ss else s :: dedupStrGo (s :: seen) ss

/-- `DojoMapper._extract_keywords_from_log`: run the nine patterns over the
lowercased content (in dict order: event_id, status, action, user, mfa,
failed, success, encryption, access) and deduplicate. -/
def extractKeywords (content : String) : List String :=
  let cl := lowerChars content
  let n := cl.length
  dedupStrGo []
    (scanKVF n "event".data (some "id".data) cl ++
     scanKVF n "status".data none cl ++
     scanKVF n "action".data none cl ++
     scanKVF n "user".data none cl ++
     scanAltsF n mfaAlts cl ++
     scanAltsF n failedAlts cl ++
     scanAltsF n successAlts cl ++
     scanAltsF n encryptionAlts cl ++
     scanAltsF n accessAlts cl)

/-- The number of extracted keywords fuzzily matching a control's keyword
list (`ck in keyword or keyword in ck` over the lowercased control
keywords). -/
def kwMatchCount (ctrl : ControlInfo) (kws : List String) : Nat :=
  (kws.filter (fun kw =>
    ctrl.keywords.any (fun ck =>
      hasSubL (lowerChars ck) kw.data || hasSubL kw.data (lowerChars ck)))).length

/-- One control's fallback score: match count, normalised by the keyword
count when it is positive. -/
def keywordScore (ctrl : ControlInfo) (kws : List String) : ℚ :=
  if 0 < ctrl.keywords.length then (kwMatchCount ctrl kws : ℚ) / (ctrl.keywords.length : ℚ)
  else (kwMatchCount ctrl kws : ℚ)

/-- One step of the best-match loop (`if score > best_score`). -/
def bestStep (kws : List String) (acc : Option ControlInfo × ℚ) (c : ControlInfo) :
    Option ControlInfo × ℚ :=
  let s := keywordScore c kws
  if acc.2 < s then (some c, s) else acc

/-- The best-scoring control over `settings.CONTROL_MAPPINGS` (strict
improvement, first winner kept). -/
def bestCtrl (kws : List String) : Option ControlInfo × ℚ :=
  CONTROL_MAPPINGS.foldl (bestStep kws) (none, 0)

/-- `DojoMapper._match_control_fallback`: the best control and its score,
accepted only above the 0.3 threshold. -/
def match_control_fallback (kws : List String) : Option (ControlInfo × ℚ) :=
  let b := bestCtrl kws
  if 3/10 < b.2 then b.1.map (fun c => (c, b.2)) else none

/-- The parsed JSON response of the OpenAI control-matching call. -/
structure AIRes where
  controlId : String
  confidence : ℚ
  reasoning : String
deriving DecidableEq

/-- The environment of one AI-matching attempt: the client is unavailable
(no import / no API key), the call raised, or it returned JSON (possibly
`null`). -/
inductive AIOutcome
  | unavailable
  | failed
  | returned (r : Option AIRes)
deriving DecidableEq

/-- A successful control match: the matched catalog entry, the score, and
the AI reasoning when the AI path produced it. -/
structure CtrlMatch where
  info : ControlInfo
  score : ℚ
  aiReasoning : Option String
deriving DecidableEq

/-- `DojoMapper._match_control_with_ai`: unavailable or erroring AI falls
back to the keyword matcher; a `null` or low-confidence (< 0.4) response
is rejected; otherwise the named control is looked up in
`settings.CONTROL_MAPPINGS`. -/
def match_control_with_ai (o : AIOutcome) (kws : List String) : Option CtrlMatch :=
  match o with
  | AIOutcome.unavailable => (match_control_fallback kws).map (fun p => ⟨p.1, p.2, none⟩)
  | AIOutcome.failed => (match_control_fallback kws).map (fun p => ⟨p.1, p.2, none⟩)
  | AIOutcome.returned none => none
  | AIOutcome.returned (some r) =>
    if r.confidence < 2/5 then none
    else (CONTROL_MAPPINGS.find? (fun c => c.controlId == r.controlId)).map
      (fun c => ⟨c, r.confidence, some r.reasoning⟩)

/-- `DojoMapper._match_control`: the AI path runs only when a content
excerpt is available, otherwise the fallback runs directly. -/
def match_control (o : AIOutcome) (kws : List String) (content : String) : Option CtrlMatch :=
  if content = "" then (match_control_fallback kws).map (fun p => ⟨p.1, p.2, none⟩)
  else match_control_with_ai o kws

/-- A `RawLog` row as read by the mapper. -/
structure DLog where
  id : Nat
  hash : String
  content : String
  source : String
deriving DecidableEq

/-- An `EvidenceObject` row (an EvidenceLinkage). -/
structure EvidenceObject where
  controlId : String
  controlName : String
  logId : Nat
  logHash : String
  linkageScore : ℚ
  linkageReason : String
  mappingMethod : String
deriving DecidableEq

/-- `DojoMapper.map_log_to_controls` for an existing log: extract keywords,
run the matcher strategy, and create at most one EvidenceLinkage; no match
yields an empty list. -/
def map_log_to_controls (o : AIOutcome) (log : DLog) : List EvidenceObject :=
  let kws := extractKeywords log.content
  match match_control o kws log.content with
  | none => []
  | some cm =>
    let reason := match cm.aiReasoning with
      | some r => "AI Analysis: " ++ r ++ ". Matched keywords: " ++ joinSep ", " (kws.take 5) ++ "."
      | none => "Matched keywords: " ++ joinSep ", " (kws.take 5) ++ ". Control description: " ++
          cm.info.descr
    [⟨cm.info.controlId, cm.info.cname, log.id, log.hash, cm.score, reason,
      if cm.aiReasoning.isSome then "ai" else "keyword"⟩]

/-- `DojoMapper.create_log_document_linkage` (manual link): looks the
control up in `settings.CONTROL_MAPPINGS` and records a linkage with the
fixed maximal score 1.0. -/
def create_log_document_linkage (_logId _docId : Nat) (controlId logSource docType : String) :
    Option (ℚ × String × String) :=
  (CONTROL_MAPPINGS.find? (fun c => c.controlId == controlId)).map (fun c =>
    ((1 : ℚ), c.cname,
     "Manual linkage: Log from " ++ logSource ++ " linked to " ++ docType ++ " for control " ++
       controlId))

/-! ## `backend/layers/raw_vault.py`

State-passing model of the vault: the database tables (`RawLog`,
`RawDocument`) and the stored files.  Lineage metadata
(`hash_with_metadata`, agent id, source timestamp, description) does not
interact with the claims under verification and is omitted from the
records; the content hash, auto-tags and file bytes are modelled exactly.
`ingest_log` hashes `file_content.decode('utf-8', errors='ignore')`
(re-encoded to UTF-8 by `calculate_content_hash`), while
`ingest_document` hashes the raw bytes. -/

/-- A string from decoded code points (every code point produced by
`decodeIgnore` is a Unicode scalar value). -/
def strOfCodes (cps : List Nat) : String := String.mk (cps.map Char.ofNat)

/-- The hash stored by `ingest_log`:
`calculate_content_hash(file_content.decode('utf-8', errors='ignore'))`. -/
def ingest_log_hash (fileContent : List Nat) : String :=
  sha256Hex (encodeUtf8 (decodeIgnore fileContent))

/-- The hash stored by `ingest_document`:
`calculate_content_hash(file_content)`. -/
def ingest_document_hash (fileContent : List Nat) : String := sha256Hex fileContent

/-- A `RawLog` row. -/
structure VLog where
  id : Nat
  hash : String
  source : String
  filename : String
  content : String
  filePath : String
  sizeBytes : Nat
  autoTags : List Tag
deriving DecidableEq

/-- A `RawDocument` row. -/
structure VDoc where
  id : Nat
  hash : String
  docType : String
  filename : String
  extractedText : String
  filePath : String
  sizeBytes : Nat
  autoTags : List Tag
deriving DecidableEq

/-- The vault state: both tables, the autoincrement counters, and the
stored files (path ↦ bytes). -/
structure VaultSt where
  logs : List VLog
  docs : List VDoc
  nextLogId : Nat
  nextDocId : Nat
  files : List (String × List Nat)
deriving DecidableEq

/-- `RawVault.ingest_log`: hash, duplicate check (fail with the existing
row's id, leaving the state untouched), auto-tag, store the file under a
hash-prefixed name, append the row. -/
def ingest_log (s : VaultSt) (fileContent : List Nat) (filename source : String) :
    VaultSt × Except (String × Nat) VLog :=
  let cps := decodeIgnore fileContent
  let fileHash := ingest_log_hash fileContent
  match s.logs.find? (fun r => r.hash == fileHash) with
  | some ex =>
    (s, Except.error ("Log with hash " ++ fileHash ++ " already exists", ex.id))
  | none =>
    let tags := auto_tag source filename (strOfCodes (cps.take 10000))
    let path := "raw_logs/" ++ fileHash ++ "_" ++ filename
    let row : VLog :=
      ⟨s.nextLogId, fileHash, source, filename, strOfCodes cps, path, fileContent.length, tags⟩
    ({s with logs := s.logs ++ [row], nextLogId := s.nextLogId + 1,
             files := s.files ++ [(path, fileContent)]},
     Except.ok row)

/-- `RawVault.ingest_document`: hash of the raw bytes, duplicate check,
file store, best-effort text extraction (an extraction failure degrades to
the empty string — `extractedText` is the collaborator's output), auto-tag
on the extracted text, append the row. -/
def ingest_document (s : VaultSt) (fileContent : List Nat) (filename docType : String)
    (extractedText : String) : VaultSt × Except (String × Nat) VDoc :=
  let fileHash := ingest_document_hash fileContent
  match s.docs.find? (fun r => r.hash == fileHash) with
  | some ex =>
    (s, Except.error ("Document with hash " ++ fileHash ++ " already exists", ex.id))
  | none =>
    let tags := auto_tag docType filename
      (if extractedText = "" then "" else String.mk (extractedText.data.take 10000))
    let path := "raw_documents/" ++ fileHash ++ "_" ++ filename
    let row : VDoc :=
      ⟨s.nextDocId, fileHash, docType, filename, extractedText, path, fileContent.length, tags⟩
    ({s with docs := s.docs ++ [row], nextDocId := s.nextDocId + 1,
             files := s.files ++ [(path, fileContent)]},
     Except.ok row)

/-- The empty vault. -/
def vault0 : VaultSt := ⟨[], [], 1, 1, []⟩

/-! ## `backend/layers/telescope.py`: `AICache` -/

/-- The in-memory cache: key ↦ (value, expiry time).  `created_at` is
stored by the source but never read on the get path and is omitted.
Times are rationals (Python float seconds). -/
def cacheGet {α : Type} (c : List (String × α × ℚ)) (now : ℚ) (k : String) :
    List (String × α × ℚ) × Option α :=
  match c.find? (fun e => e.1 == k) with
  | none => (c, none)
  | some e =>
    if e.2.2 < now then (c.filter (fun x => x.1 != k), none)
    else (c, some e.2.1)

/-- `AICache.set`: store under the key with expiry `now + ttl` (dict
assignment: replace in place or append). -/
def cacheSet {α : Type} (c : List (String × α × ℚ)) (k : String) (v : α) (now ttl : ℚ) :
    List (String × α × ℚ) :=
  if c.any (fun e => e.1 == k) then
    c.map (fun e => if e.1 == k then (k, v, now + ttl) else e)
  else c ++ [(k, v, now + ttl)]

/-- `AICache._generate_key('parse_query', query)`: SHA-256 of the sorted
JSON dump of the arguments (faithful for queries with no JSON-escaped
characters). -/
def parseQueryKey (q : String) : String :=
  sha256Hex (strBytes ("\x7b\"args\": [\"parse_query\", \"" ++ q ++ "\"], \"kwargs\": \x7b\x7d\x7d"))

/-- The cache skeleton of `_parse_natural_language_query_with_ai` when the
provider call succeeds: no client → fallback without a provider call;
cache hit → cached value, no provider call; miss → one provider call,
result cached with the source's 18000-second TTL.  The third component
counts provider invocations. -/
def parse_with_cache {α : Type} (available : Bool) (fallback provider : String → α)
    (c : List (String × α × ℚ)) (now : ℚ) (q : String) :
    α × List (String × α × ℚ) × Nat :=
  if !available then (fallback q, c, 0)
  else
    let key := parseQueryKey q
    let g := cacheGet c now key
    match g.2 with
    | some v => (v, g.1, 0)
    | none =>
      let v := provider q
      (v, cacheSet g.1 key v now 18000, 1)

/-! ## `Telescope._calculate_relevance_score_with_ai` (fallback path) and
the `query_evidence` relevance filter -/

/-- Words of the lowercased query found in the lowercased content
(`sum(1 for word in query_lower.split() if word in content_lower)`). -/
def countQueryWords (query content : String) : Nat :=
  ((splitWs (lowerChars query)).filter (fun w => hasSubL w (lowerChars content))).length

/-- The fallback relevance score `min(0.5 + matches * 0.1, 1.0)`. -/
def fallback_relevance_score (query content : String) : ℚ :=
  min (1/2 + (countQueryWords query content : ℚ) * (1/10)) 1

/-- An evidence item as scored by `query_evidence`. -/
structure QItem where
  typ : String
  id : Nat
  score : ℚ
deriving DecidableEq

/-- The `query_evidence` post-scoring filter: drop items scoring below
0.3. -/
def filterLowRelevance (items : List QItem) : List QItem :=
  items.filter (fun i => 3/10 ≤ i.score)

/-! ## `Telescope.perform_gap_analysis` -/

/-- An evidence item as seen by the gap analyzer (`content_preview` and
`ingested_at`, the latter in whole days). -/
structure GEvItem where
  contentPreview : String
  ingestedAt : Option Int
deriving DecidableEq

/-- A reported gap. -/
structure Gap where
  gtype : String
  controlId : Option String
  question : String
  severity : String
  daysOverdue : Option Int
  requiredFrequencyDays : Option Nat
deriving DecidableEq

/-- The `temporal_keywords` table, in dict order (first match wins). -/
def temporalKeywords : List (String × Nat) :=
  [("annual", 365), ("yearly", 365), ("quarterly", 90), ("monthly", 30), ("weekly", 7),
   ("daily", 1)]

/-- The embedded frequency requirement of a question. -/
def requiredFreq (qLower : List Char) : Option Nat :=
  (temporalKeywords.find? (fun kv => hasSubL kv.1.data qLower)).map (fun kv => kv.2)

/-- Does an item's content preview share any of the question's first three
words? -/
def questionRelevant (qLower : List Char) (item : GEvItem) : Bool :=
  ((splitWs qLower).take 3).any (fun kw => hasSubL kw (lowerChars item.contentPreview))

/-- `max(..., default=None)` over the timestamps. -/
def listMaxInt (l : List Int) : Option Int :=
  l.foldl (fun acc x => match acc with
    | none => some x
    | some m => some (max m x)) none

/-- The gaps produced for one assessment question: a `temporal_gap` when
matching evidence exists, a frequency requirement is embedded and the
freshest matching item is older than it (severity `high` beyond twice the
requirement), and a `coverage_gap` when no evidence matches. -/
def gapsForQuestion (cid : String) (question : String) (evidence : List GEvItem) (now : Int) :
    List Gap :=
  let qL := lowerChars question
  let relevant := evidence.filter (questionRelevant qL)
  let temporal : List Gap :=
    if relevant.isEmpty then []
    else
      match requiredFreq qL with
      | none => []
      | some d =>
        match listMaxInt (relevant.filterMap (fun i => i.ingestedAt)) with
        | none => []
        | some mostRecent =>
          let daysOld : Int := now - mostRecent
          if (d : Int) < daysOld then
            [⟨"temporal_gap", some cid, question,
              if (d : Int) * 2 < daysOld then "high" else "medium",
              some (daysOld - (d : Int)), some d⟩]
          else []
  let coverage : List Gap :=
    if relevant.isEmpty then [⟨"coverage_gap", some cid, question, "high", none, none⟩] else []
  temporal ++ coverage

/-- `Telescope.perform_gap_analysis`: per-question gaps for a known
control; with no control id, only an empty-evidence coverage check. -/
def perform_gap_analysis (controlId : Option String) (evidence : List GEvItem) (now : Int) :
    List Gap :=
  match controlId with
  | some cid =>
    match findCat cid with
    | some c => (c.questions.map (fun q => gapsForQuestion cid q evidence now)).flatten
    | none => []
  | none =>
    if evidence.isEmpty then
      [⟨"coverage_gap", none, "General evidence coverage", "high", none, none⟩]
    else []

/-! ## `Telescope.generate_assurance_pack`

State-passing model of the pack pipeline's externally visible effects:
pack working directories, zip archives, persisted pack rows, and the query
audit trail written by `query_evidence`.  Per-item copy outcomes
(`_copy_evidence_files`: batch fetch, on-disk existence check,
`shutil.copy`) are abstracted into each item's `copyOk` flag, and the
final database commit into `dbOk`. -/

/-- Filesystem/database state touched by pack generation. -/
structure PackSt where
  dirs : List String
  zips : List String
  packs : List String
  queries : List String
deriving DecidableEq

/-- An evidence item headed for the pack, with its copy outcome. -/
structure PEvItem where
  typ : String
  id : Nat
  copyOk : Bool
deriving DecidableEq

/-- Merge one explicitly requested id into the evidence list, deduplicating
by `(type, id)`. -/
def mergeExplicitItem (acc : List PEvItem) (t : String) (p : Nat × Bool) : List PEvItem :=
  if acc.any (fun e => e.typ == t && e.id == p.1) then acc else acc ++ [⟨t, p.1, p.2⟩]

/-- Merge the explicit log and document ids into the query results. -/
def mergeExplicit (items : List PEvItem) (logs docs : List (Nat × Bool)) : List PEvItem :=
  let a := logs.foldl (fun acc p => mergeExplicitItem acc "log" p) items
  docs.foldl (fun acc p => mergeExplicitItem acc "document" p) a

/-- `Telescope.generate_assurance_pack`: validation, query audit row,
explicit-evidence merge, working directory, per-item copies, the
zero-copies abort (delete the working directory, raise), zip, working
directory cleanup, and the final commit with zip rollback on failure. -/
def generate_assurance_pack (st : PackSt) (packId query : String) (startT endT : Int)
    (queryItems : List PEvItem) (explicitLogs explicitDocs : List (Nat × Bool)) (dbOk : Bool) :
    PackSt × Except String String :=
  if endT ≤ startT then (st, Except.error "time_range_start must be before time_range_end")
  else if 3650 < endT - startT then (st, Except.error "Time range cannot exceed 10 years")
  else
    let st1 : PackSt := {st with queries := st.queries ++ [query]}
    let merged := mergeExplicit queryItems explicitLogs explicitDocs
    if merged.length = 0 then
      (st1, Except.error "No evidence found for the specified query and time range")
    else
      let st2 : PackSt := {st1 with dirs := st1.dirs ++ [packId]}
      let successCount := (merged.filter (fun e => e.copyOk)).length
      if successCount = 0 then
        ({st2 with dirs := st2.dirs.erase packId}, Except.error "Failed to copy any evidence files")
      else
        let st3 : PackSt := {st2 with zips := st2.zips ++ [packId ++ ".zip"]}
        let st4 : PackSt := {st3 with dirs := st3.dirs.erase packId}
        if dbOk then ({st4 with packs := st4.packs ++ [packId]}, Except.ok packId)
        else ({st4 with zips := st4.zips.erase (packId ++ ".zip")},
              Except.error "Failed to save pack to database")

/-- The pack-hash computation at the end of `generate_assurance_pack`:
file-based chunked hashing above 10 MB, whole-buffer hashing below. -/
def pack_hash_of_zip (zipBytes : List Nat) : String :=
  if 10 * 1024 * 1024 < zipBytes.length then calculate_file_hash zipBytes
  else calculate_content_hash zipBytes

/-! ## Sanity anchors -/

example : sha256Hex [] = "e3b0c44298fc1c149afbf4c8996fb92427ae41e4649b934ca495991b7852b855" := by
  decide

example : sha256Hex [97, 98, 99] =
    "ba7816bf8f01cfea414140de5dae2223b00361a396177a9cb410ff61f20015ad" := by decide

example : decodeIgnore [255, 97, 98, 99] = [97, 98, 99] := by decide

example : decodeIgnore [0xE2, 0x82, 0xAC, 0x41] = [0x20AC, 65] := by decide

example : decodeIgnore [0xE0, 0xA0, 0x41] = [65] := by decide

example : validUtf8 [0xE2, 0x82, 0xAC, 0x41] = true := by decide

example : validUtf8 [255] = false := by decide

/-! ## Streaming/one-shot SHA-256 agreement (claim C7 machinery) -/

theorem eat_nil (f : Nat) (h : List Nat) : eatBlocksF f h [] = (h, []) := by
  cases f <;> simp [eatBlocksF]

theorem eat_fuel : ∀ f g : Nat, ∀ h l : List Nat, l.length ≤ f → l.length ≤ g →
    eatBlocksF f h l = eatBlocksF g h l := by
  intro f
  induction f with
  | zero =>
    intro g h l hf _
    have hl : l = [] := List.eq_nil_of_length_eq_zero (Nat.le_zero.mp hf)
    subst hl
    rw [eat_nil, eat_nil]
  | succ f ih =>
    intro g h l hf hg
    cases g with
    | zero =>
      have hl : l = [] := List.eq_nil_of_length_eq_zero (Nat.le_zero.mp hg)
      subst hl
      rw [eat_nil, eat_nil]
    | succ g =>
      simp only [eatBlocksF]
      by_cases h64 : 64 ≤ l.length
      · rw [if_pos h64, if_pos h64]
        apply ih
        · rw [List.length_drop]; omega
        · rw [List.length_drop]; omega
      · rw [if_neg h64, if_neg h64]

theorem absorb_nil (h : List Nat) : absorb h [] = (h, []) := rfl

theorem absorb_small (h l : List Nat) (hl : l.length < 64) : absorb h l = (h, l) := by
  cases l with
  | nil => rfl
  | cons c cs =>
    show eatBlocksF (c :: cs).length h (c :: cs) = (h, c :: cs)
    rw [List.length_cons]
    simp only [eatBlocksF]
    rw [if_neg (by omega)]

theorem absorb_step (h l : List Nat) (h64 : 64 ≤ l.length) :
    absorb h l = absorb (compress h (l.take 64)) (l.drop 64) := by
  show eatBlocksF l.length h l = eatBlocksF (l.drop 64).length _ (l.drop 64)
  obtain ⟨m, hm⟩ : ∃ m, l.length = m + 1 := ⟨l.length - 1, by omega⟩
  rw [hm]
  simp only [eatBlocksF]
  rw [if_pos h64]
  exact eat_fuel m ((l.drop 64).length) _ (l.drop 64) (by rw [List.length_drop]; omega) le_rfl

theorem absorb_append : ∀ (n : Nat) (a b h : List Nat), a.length ≤ n →
    absorb h (a ++ b) = absorb (absorb h a).1 ((absorb h a).2 ++ b) := by
  intro n
  induction n with
  | zero =>
    intro a b h ha
    have hl : a = [] := List.eq_nil_of_length_eq_zero (Nat.le_zero.mp ha)
    subst hl
    rw [absorb_nil]
  | succ n ih =>
    intro a b h ha
    by_cases h64 : 64 ≤ a.length
    · have hab : 64 ≤ (a ++ b).length := by rw [List.length_append]; omega
      rw [absorb_step h (a ++ b) hab, List.take_append_of_le_length h64,
        List.drop_append_of_le_length h64, absorb_step h a h64]
      exact ih (a.drop 64) b (compress h (a.take 64)) (by rw [List.length_drop]; omega)
    · push_neg at h64
      rw [absorb_small h a h64]

theorem chunksF_fuel : ∀ f g n : Nat, ∀ l : List Nat, l.length ≤ f → l.length ≤ g → 0 < n →
    chunksF f n l = chunksF g n l := by
  intro f
  induction f with
  | zero =>
    intro g n l hf _ _
    have hl : l = [] := List.eq_nil_of_length_eq_zero (Nat.le_zero.mp hf)
    subst hl
    cases g <;> simp [chunksF]
  | succ f ih =>
    intro g n l hf hg hn
    cases l with
    | nil => cases g <;> simp [chunksF]
    | cons c cs =>
      cases g with
      | zero => simp at hg
      | succ g =>
        simp only [chunksF]
        congr 1
        apply ih
        · rw [List.length_drop]; simp only [List.length_cons] at hf ⊢; omega
        · rw [List.length_drop]; simp only [List.length_cons] at hg ⊢; omega
        · exact hn

theorem chunks_cons_block (b x : List Nat) (hb : b.length = 64) :
    chunks 64 (b ++ x) = b :: chunks 64 x := by
  cases b with
  | nil => simp at hb
  | cons c cs =>
    simp only [chunks]
    have h1 : ((c :: cs) ++ x).length = (cs ++ x).length + 1 := by simp
    rw [h1, List.cons_append]
    simp only [chunksF]
    rw [← List.cons_append, List.take_append_of_le_length (le_of_eq hb.symm),
      List.drop_append_of_le_length (le_of_eq hb.symm), ← hb, List.take_length,
      List.drop_length, List.nil_append]
    congr 1
    exact chunksF_fuel _ _ _ x (by rw [List.length_append]; omega) le_rfl (by omega)

theorem chunks_append_mult : ∀ (n : Nat) (q x : List Nat), q.length ≤ n → q.length % 64 = 0 →
    chunks 64 (q ++ x) = chunks 64 q ++ chunks 64 x := by
  intro n
  induction n with
  | zero =>
    intro q x hq _
    have hl : q = [] := List.eq_nil_of_length_eq_zero (Nat.le_zero.mp hq)
    subst hl
    simp [chunks, chunksF]
  | succ n ih =>
    intro q x hq hmod
    by_cases hq0 : q = []
    · subst hq0; simp [chunks, chunksF]
    · have hlen : 0 < q.length := List.length_pos.mpr hq0
      have h64 : 64 ≤ q.length := by omega
      have htake : (q.take 64).length = 64 := by
        rw [List.length_take]; omega
      calc chunks 64 (q ++ x)
          = chunks 64 ((q.take 64 ++ q.drop 64) ++ x) := by rw [List.take_append_drop]
        _ = chunks 64 (q.take 64 ++ (q.drop 64 ++ x)) := by rw [List.append_assoc]
        _ = q.take 64 :: chunks 64 (q.drop 64 ++ x) := chunks_cons_block _ _ htake
        _ = q.take 64 :: (chunks 64 (q.drop 64) ++ chunks 64 x) := by
            rw [ih (q.drop 64) x (by rw [List.length_drop]; omega)
              (by rw [List.length_drop]; omega)]
        _ = (q.take 64 :: chunks 64 (q.drop 64)) ++ chunks 64 x := rfl
        _ = chunks 64 (q.take 64 ++ q.drop 64) ++ chunks 64 x := by
            rw [chunks_cons_block _ _ htake]
        _ = chunks 64 q ++ chunks 64 x := by rw [List.take_append_drop]

theorem chunksF_flatten : ∀ f n : Nat, ∀ l : List α, l.length ≤ f → 0 < n →
    (chunksF f n l).flatten = l := by
  intro f
  induction f with
  | zero =>
    intro n l hf _
    have hl : l = [] := List.eq_nil_of_length_eq_zero (Nat.le_zero.mp hf)
    subst hl
    simp [chunksF]
  | succ f ih =>
    intro n l hf hn
    cases l with
    | nil => simp [chunksF]
    | cons c cs =>
      simp only [chunksF, List.flatten_cons]
      rw [ih n _ (by rw [List.length_drop]; simp only [List.length_cons] at hf ⊢; omega) hn]
      exact List.take_append_drop _ _

theorem chunks_flatten (n : Nat) (l : List α) (hn : 0 < n) : (chunks n l).flatten = l :=
  chunksF_flatten _ _ _ le_rfl hn

theorem absorb_chars : ∀ (n : Nat) (a h : List Nat), a.length ≤ n →
    ∃ q, a = q ++ (absorb h a).2 ∧ q.length % 64 = 0 ∧
      (absorb h a).1 = (chunks 64 q).foldl compress h ∧ (absorb h a).2.length < 64 := by
  intro n
  induction n with
  | zero =>
    intro a h ha
    have hl : a = [] := List.eq_nil_of_length_eq_zero (Nat.le_zero.mp ha)
    subst hl
    exact ⟨[], by simp [absorb_nil], by simp, by simp [absorb_nil, chunks, chunksF], by
      simp [absorb_nil]⟩
  | succ n ih =>
    intro a h ha
    by_cases h64 : 64 ≤ a.length
    · rw [absorb_step h a h64]
      obtain ⟨q', hsplit, hmod, hfold, hrem⟩ :=
        ih (a.drop 64) (compress h (a.take 64)) (by rw [List.length_drop]; omega)
      refine ⟨a.take 64 ++ q', ?_, ?_, ?_, hrem⟩
      · conv_lhs => rw [← List.take_append_drop 64 a]
        rw [List.append_assoc, ← hsplit]
      · have := List.length_take 64 a
        rw [List.length_append]
        omega
      · rw [chunks_cons_block _ _ (by rw [List.length_take]; omega), List.foldl_cons, ← hfold]
    · push_neg at h64
      rw [absorb_small h a h64]
      exact ⟨[], by simp, by simp, by simp [chunks, chunksF], h64⟩

theorem ctxUpdate_ctxOf (m d : List Nat) : ctxUpdate (ctxOf m) d = ctxOf (m ++ d) := by
  have K := absorb_append m.length m d H256 le_rfl
  show (⟨_, _, _⟩ : Sha256Ctx) = _
  unfold ctxOf
  rw [K]
  simp [ctxUpdate, absorb, List.length_append]

theorem foldl_ctxUpdate : ∀ cs : List (List Nat), ∀ m : List Nat,
    cs.foldl ctxUpdate (ctxOf m) = ctxOf (m ++ cs.flatten) := by
  intro cs
  induction cs with
  | nil => intro m; simp
  | cons c cs ih =>
    intro m
    rw [List.foldl_cons, ctxUpdate_ctxOf, ih, List.flatten_cons, List.append_assoc]

theorem ctxInit_eq : ctxInit = ctxOf [] := rfl

theorem ctxDigest_ctxOf (b : List Nat) : ctxDigest (ctxOf b) = sha256Bytes b := by
  obtain ⟨q, hsplit, hmod, hfold, _⟩ := absorb_chars b.length b H256 le_rfl
  unfold ctxDigest ctxOf sha256Bytes padMsg
  simp only
  rw [hfold]
  have hb : b ++ padTail b.length = q ++ ((absorb H256 b).2 ++ padTail b.length) := by
    rw [← List.append_assoc, ← hsplit]
  rw [hb, chunks_append_mult q.length q _ le_rfl hmod, List.foldl_append]

theorem calculate_file_hash_eq (b : List Nat) :
    calculate_file_hash b = calculate_content_hash b := by
  unfold calculate_file_hash calculate_content_hash ctxHexdigest sha256Hex
  rw [ctxInit_eq, foldl_ctxUpdate, List.nil_append, chunks_flatten 4096 b (by omega),
    ctxDigest_ctxOf]

/-- C7: for every byte string, the chunked file-based hashing routine
(4096-byte blocks fed to an incremental SHA-256) yields the same hex
digest as the whole-buffer hashing routine, so the pack hash computed in
`generate_assurance_pack` is independent of which of the two
size-dependent paths is taken. -/
theorem c7_chunked_hash_eq (zipBytes : List Nat) :
    calculate_file_hash zipBytes = calculate_content_hash zipBytes ∧
    pack_hash_of_zip zipBytes = calculate_content_hash zipBytes := by
  refine ⟨calculate_file_hash_eq zipBytes, ?_⟩
  unfold pack_hash_of_zip
  split_ifs with h
  · exact calculate_file_hash_eq zipBytes
  · rfl

/-! ## UTF-8 round trip on valid input (claim C2 machinery) -/

theorem decStep_sound (b : Nat) (rest : List Nat) (cp n : Nat)
    (h : decStep (b :: rest) = (some cp, n)) :
    encodeCp cp = (b :: rest).take n ∧ 1 ≤ n ∧ n ≤ (b :: rest).length := by
  simp only [decStep] at h
  by_cases h1 : b ≤ 0x7F
  · rw [if_pos h1, Prod.mk.injEq, Option.some.injEq] at h
    obtain ⟨hcp, hn⟩ := h
    subst hcp; subst hn
    refine ⟨?_, le_rfl, by simp⟩
    rw [encodeCp, if_pos (by omega)]
    simp
  · rw [if_neg h1] at h
    by_cases h2 : b < 0xC2
    · rw [if_pos h2] at h; simp at h
    · rw [if_neg h2] at h
      by_cases h3 : b ≤ 0xDF
      · rw [if_pos h3] at h
        cases rest with
        | nil => simp at h
        | cons c1 rest1 =>
          dsimp only at h
          by_cases hc : isContB c1 = true
          · rw [if_pos hc, Prod.mk.injEq, Option.some.injEq] at h
            obtain ⟨hcp, hn⟩ := h
            subst hcp; subst hn
            simp only [isContB, Bool.and_eq_true, decide_eq_true_eq] at hc
            refine ⟨?_, by omega, by simp⟩
            rw [encodeCp, if_neg (by omega), if_pos (by omega)]
            simp only [List.take_succ_cons, List.take_zero, List.cons.injEq, and_true]
            constructor <;> omega
          · rw [if_neg hc] at h; simp at h
      · rw [if_neg h3] at h
        by_cases h4 : b ≤ 0xEF
        · rw [if_pos h4] at h
          cases rest with
          | nil => simp at h
          | cons c1 rest1 =>
            dsimp only at h
            by_cases hr : ((if b = 0xE0 then 0xA0 else 0x80) ≤ c1 &&
                c1 ≤ (if b = 0xED then 0x9F else 0xBF)) = true
            · rw [if_pos hr] at h
              simp only [Bool.and_eq_true, decide_eq_true_eq] at hr
              obtain ⟨hlo, hhi⟩ := hr
              cases rest1 with
              | nil => simp at h
              | cons c2 rest2 =>
                dsimp only at h
                by_cases hc2 : isContB c2 = true
                · rw [if_pos hc2, Prod.mk.injEq, Option.some.injEq] at h
                  obtain ⟨hcp, hn⟩ := h
                  subst hcp; subst hn
                  simp only [isContB, Bool.and_eq_true, decide_eq_true_eq] at hc2
                  refine ⟨?_, by omega, by simp⟩
                  split_ifs at hlo hhi with he0 hed
                  all_goals
                    rw [encodeCp, if_neg (by omega), if_neg (by omega), if_pos (by omega)]
                  all_goals
                    simp only [List.take_succ_cons, List.take_zero, List.cons.injEq, and_true]
                  all_goals refine ⟨by omega, by omega, by omega⟩
                · rw [if_neg hc2] at h; simp at h
            · rw [if_neg hr] at h; simp at h
        · rw [if_neg h4] at h
          by_cases h5 : b ≤ 0xF4
          · rw [if_pos h5] at h
            cases rest with
            | nil => simp at h
            | cons c1 rest1 =>
              dsimp only at h
              by_cases hr : ((if b = 0xF0 then 0x90 else 0x80) ≤ c1 &&
                  c1 ≤ (if b = 0xF4 then 0x8F else 0xBF)) = true
              · rw [if_pos hr] at h
                simp only [Bool.and_eq_true, decide_eq_true_eq] at hr
                obtain ⟨hlo, hhi⟩ := hr
                cases rest1 with
                | nil => simp at h
                | cons c2 rest2 =>
                  dsimp only at h
                  by_cases hc2 : isContB c2 = true
                  · rw [if_pos hc2] at h
                    simp only [isContB, Bool.and_eq_true, decide_eq_true_eq] at hc2
                    cases rest2 with
                    | nil => simp at h
                    | cons c3 rest3 =>
                      dsimp only at h
                      by_cases hc3 : isContB c3 = true
                      · rw [if_pos hc3, Prod.mk.injEq, Option.some.injEq] at h
                        obtain ⟨hcp, hn⟩ := h
                        subst hcp; subst hn
                        simp only [isContB, Bool.and_eq_true, decide_eq_true_eq] at hc3
                        refine ⟨?_, by omega, by simp⟩
                        split_ifs at hlo hhi with hf0 hf4
                        all_goals
                          rw [encodeCp, if_neg (by omega), if_neg (by omega), if_neg (by omega)]
                        all_goals
                          simp only [List.take_succ_cons, List.take_zero, List.cons.injEq,
                            and_true]
                        all_goals refine ⟨by omega, by omega, by omega, by omega⟩
                      · rw [if_neg hc3] at h; simp at h
                  · rw [if_neg hc2] at h; simp at h
              · rw [if_neg hr] at h; simp at h
          · rw [if_neg h5] at h; simp at h

theorem utf8_round_aux : ∀ f : Nat, ∀ l : List Nat, l.length ≤ f → validUtf8F f l = true →
    encodeUtf8 (decodeIgnoreF f l) = l := by
  intro f
  induction f with
  | zero =>
    intro l hf _
    have hl : l = [] := List.eq_nil_of_length_eq_zero (Nat.le_zero.mp hf)
    subst hl
    rfl
  | succ f ih =>
    intro l hf hv
    cases l with
    | nil => rfl
    | cons b rest =>
      simp only [validUtf8F] at hv
      obtain ⟨cp, n, hd⟩ : ∃ cp n, decStep (b :: rest) = (some cp, n) := by
        rcases hds : decStep (b :: rest) with ⟨o, k⟩
        cases o with
        | some cp => exact ⟨cp, k, rfl⟩
        | none => rw [hds] at hv; simp at hv
      rw [hd] at hv
      simp only [decodeIgnoreF]
      rw [hd]
      simp only
      obtain ⟨henc, hn1, hnle⟩ := decStep_sound b rest cp n hd
      rw [List.singleton_append, encodeUtf8,
        ih _ (by rw [List.length_drop]; simp only [List.length_cons] at hf ⊢; omega) hv,
        henc, List.take_append_drop]

theorem utf8_clean_id (b : List Nat) (hv : validUtf8 b = true) :
    encodeUtf8 (decodeIgnore b) = b :=
  utf8_round_aux _ _ le_rfl hv

/-! ## Claim C2: stored content hashes -/

theorem ingest_document_ok_hash (s : VaultSt) (c : List Nat) (fn dt et : String) (s' : VaultSt)
    (r : VDoc) (hok : ingest_document s c fn dt et = (s', Except.ok r)) :
    r.hash = ingest_document_hash c := by
  simp only [ingest_document] at hok
  rcases hfind : s.docs.find? (fun rr => rr.hash == ingest_document_hash c) with _ | ex
  · rw [hfind] at hok
    rw [Prod.mk.injEq] at hok
    obtain ⟨-, hr⟩ := hok
    rw [Except.ok.injEq] at hr
    rw [← hr]
  · rw [hfind] at hok
    simp at hok

theorem ingest_log_ok_hash (s : VaultSt) (c : List Nat) (fn src : String) (s' : VaultSt)
    (r : VLog) (hok : ingest_log s c fn src = (s', Except.ok r)) :
    r.hash = ingest_log_hash c := by
  simp only [ingest_log] at hok
  rcases hfind : s.logs.find? (fun rr => rr.hash == ingest_log_hash c) with _ | ex
  · rw [hfind] at hok
    rw [Prod.mk.injEq] at hok
    obtain ⟨-, hr⟩ := hok
    rw [Except.ok.injEq] at hr
    rw [← hr]
  · rw [hfind] at hok
    simp at hok

/-- C2 (counterexample): the log ingested from the non-UTF-8 bytes
`ff 61 62 63` stores the SHA-256 of the lossily decoded text `abc`, not
the SHA-256 of the raw submitted bytes. -/
theorem c2_counterexample :
    (ingest_log vault0 [255, 97, 98, 99] "log.txt" "SWIFT").2.toOption.map VLog.hash =
      some (sha256Hex [97, 98, 99]) ∧
    (ingest_log vault0 [255, 97, 98, 99] "log.txt" "SWIFT").2.toOption.map VLog.hash ≠
      some (calculate_content_hash [255, 97, 98, 99]) := by
  constructor
  · decide
  · decide

/-- C2 (amended): `ingest_document` stores exactly the SHA-256 of the raw
submitted bytes; `ingest_log` stores the SHA-256 of the UTF-8 re-encoding
of the lossily decoded content, which coincides with the raw-byte digest
precisely on valid UTF-8 input. -/
theorem c2_stored_hash :
    (∀ (s : VaultSt) (c : List Nat) (fn dt et : String) (s' : VaultSt) (r : VDoc),
       ingest_document s c fn dt et = (s', Except.ok r) →
         r.hash = calculate_content_hash c) ∧
    (∀ (s : VaultSt) (c : List Nat) (fn src : String) (s' : VaultSt) (r : VLog),
       validUtf8 c = true → ingest_log s c fn src = (s', Except.ok r) →
         r.hash = calculate_content_hash c) := by
  constructor
  · intro s c fn dt et s' r hok
    exact ingest_document_ok_hash s c fn dt et s' r hok
  · intro s c fn src s' r hv hok
    rw [ingest_log_ok_hash s c fn src s' r hok]
    show sha256Hex (encodeUtf8 (decodeIgnore c)) = _
    rw [utf8_clean_id c hv]
    rfl

theorem c2_stored_hash_witness :
    validUtf8 [97] = true ∧
    (ingest_log vault0 [97] "f.log" "SWIFT").2.toOption.map VLog.hash =
      some (calculate_content_hash [97]) ∧
    (ingest_document vault0 [1, 2, 3] "d.pdf" "Policy" "").2.toOption.map VDoc.hash =
      some (calculate_content_hash [1, 2, 3]) := by
  refine ⟨by decide, ?_, ?_⟩
  · rcases heq : ingest_log vault0 [97] "f.log" "SWIFT" with ⟨s', res⟩
    cases res with
    | error e =>
      have hnone : (ingest_log vault0 [97] "f.log" "SWIFT").2.toOption = none := by
        rw [heq]; rfl
      exact absurd hnone (by decide)
    | ok r =>
      have hh := c2_stored_hash.2 vault0 [97] "f.log" "SWIFT" s' r (by decide) heq
      simp [Except.toOption, hh]
  · rcases heq : ingest_document vault0 [1, 2, 3] "d.pdf" "Policy" "" with ⟨s', res⟩
    cases res with
    | error e =>
      have hnone : (ingest_document vault0 [1, 2, 3] "d.pdf" "Policy" "").2.toOption = none := by
        rw [heq]; rfl
      exact absurd hnone (by decide)
    | ok r =>
      have hh := c2_stored_hash.1 vault0 [1, 2, 3] "d.pdf" "Policy" "" s' r heq
      simp [Except.toOption, hh]

/-! ## Claim C3: auto-tag merge behaviour -/

theorem dedupTagsGo_find : ∀ (l : List Tag) (seen : List String) (cid : String),
    seen.contains cid = false →
    (dedupTagsGo seen l).find? (fun t => t.cid == cid) = l.find? (fun t => t.cid == cid) := by
  intro l
  induction l with
  | nil => intro seen cid _; rfl
  | cons t ts ih =>
    intro seen cid hseen
    simp only [dedupTagsGo]
    by_cases hmem : seen.contains t.cid = true
    · rw [if_pos hmem]
      have hne : ¬ (t.cid == cid) = true := by
        intro hb
        have hcc : t.cid = cid := by simpa using hb
        rw [hcc] at hmem
        rw [hseen] at hmem
        exact Bool.noConfusion hmem
      rw [@List.find?_cons_of_neg Tag (fun u => u.cid == cid) t ts hne]
      exact ih seen cid hseen
    · rw [if_neg hmem]
      by_cases heq : (t.cid == cid) = true
      · rw [@List.find?_cons_of_pos Tag (fun u => u.cid == cid) t
            (dedupTagsGo (t.cid :: seen) ts) heq,
          @List.find?_cons_of_pos Tag (fun u => u.cid == cid) t ts heq]
      · rw [@List.find?_cons_of_neg Tag (fun u => u.cid == cid) t
            (dedupTagsGo (t.cid :: seen) ts) heq,
          @List.find?_cons_of_neg Tag (fun u => u.cid == cid) t ts heq]
        apply ih
        have h1 : (cid == t.cid) = false := by
          by_cases hcc : cid = t.cid
          · exact absurd (by simp [hcc] : (t.cid == cid) = true) heq
          · simp [hcc]
        rw [List.contains_cons, h1, hseen]
        rfl

theorem dedupTagsGo_cids : ∀ (l : List Tag) (seen : List String),
    ((dedupTagsGo seen l).map Tag.cid).Nodup ∧
    ∀ c ∈ (dedupTagsGo seen l).map Tag.cid, seen.contains c = false := by
  intro l
  induction l with
  | nil => intro seen; exact ⟨List.nodup_nil, by simp [dedupTagsGo]⟩
  | cons t ts ih =>
    intro seen
    simp only [dedupTagsGo]
    by_cases hmem : seen.contains t.cid = true
    · rw [if_pos hmem]; exact ih seen
    · rw [if_neg hmem]
      obtain ⟨hnd, hsub⟩ := ih (t.cid :: seen)
      constructor
      · simp only [List.map_cons]
        rw [List.nodup_cons]
        refine ⟨?_, hnd⟩
        intro hin
        have hcon := hsub _ hin
        rw [List.contains_cons] at hcon
        simp at hcon
      · intro c hc
        simp only [List.map_cons, List.mem_cons] at hc
        rcases hc with hc | hc
        · subst hc
          exact Bool.eq_false_iff.mpr hmem
        · have hcon := hsub c hc
          rw [List.contains_cons] at hcon
          simp only [Bool.or_eq_false_iff] at hcon
          exact hcon.2

theorem mergeTag_cid (e t : Tag) : (mergeTag e t).cid = e.cid := rfl

theorem lookupTag_mergeInto (m : List Tag) (t : Tag) (cid : String) :
    lookupTag cid (mergeInto m t) =
      if t.cid = cid then
        match lookupTag cid m with
        | some e => some (mergeTag e t)
        | none => some t
      else lookupTag cid m := by
  unfold mergeInto lookupTag
  by_cases hany : m.any (fun e => e.cid == t.cid) = true
  · rw [if_pos hany]
    rw [List.find?_map]
    have hpg : ((fun x : Tag => x.cid == cid) ∘
        (fun e : Tag => if (e.cid == t.cid) = true then mergeTag e t else e)) =
        fun e : Tag => e.cid == cid := by
      funext e
      simp only [Function.comp]
      split <;> rfl
    rw [hpg]
    by_cases ht : t.cid = cid
    · rw [if_pos ht]
      rcases hfind : m.find? (fun e => e.cid == cid) with _ | e
      · exfalso
        rw [List.any_eq_true] at hany
        obtain ⟨e, hmem, hbeq⟩ := hany
        have hec : e.cid = t.cid := by simpa using hbeq
        exact (List.find?_eq_none.mp hfind e hmem) (by simp [hec, ht])
      · rw [hfind]
        have hec : e.cid = cid := by simpa using List.find?_some hfind
        have hbt : (e.cid == t.cid) = true := by simp [hec, ht]
        show some (if (e.cid == t.cid) = true then mergeTag e t else e) = _
        rw [if_pos hbt]
    · rw [if_neg ht]
      rcases hfind : m.find? (fun e => e.cid == cid) with _ | e
      · rw [hfind]
        rfl
      · rw [hfind]
        have hec : e.cid = cid := by simpa using List.find?_some hfind
        have hne : ¬ (e.cid == t.cid) = true := by
          simp only [beq_iff_eq, hec]
          exact fun h => ht h.symm
        show some (if (e.cid == t.cid) = true then mergeTag e t else e) = _
        rw [if_neg hne]
  · rw [if_neg hany]
    rw [List.find?_append]
    by_cases ht : t.cid = cid
    · have hnone : m.find? (fun e => e.cid == cid) = none := by
        rw [List.find?_eq_none]
        intro x hx hbx
        apply hany
        rw [List.any_eq_true]
        have hxc : x.cid = cid := by simpa using hbx
        exact ⟨x, hx, by simp [hxc, ht]⟩
      rw [hnone, if_pos ht, List.find?_cons_of_pos _ (by simp [ht])]
      rfl
    · rw [if_neg ht, List.find?_cons_of_neg _ (by simp; exact fun h => ht h)]
      simp

theorem foldl_mergeInto_disjoint : ∀ (l m : List Tag),
    ((l.map Tag.cid).Nodup) → (∀ t ∈ l, m.any (fun e => e.cid == t.cid) = false) →
    l.foldl mergeInto m = m ++ l := by
  intro l
  induction l with
  | nil => intro m _ _; simp
  | cons t ts ih =>
    intro m hnd hdis
    simp only [List.foldl_cons]
    have h1 : mergeInto m t = m ++ [t] := by
      unfold mergeInto
      rw [if_neg (by rw [hdis t (List.mem_cons_self t ts)]; simp)]
    simp only [List.map_cons, List.nodup_cons] at hnd
    rw [h1, ih (m ++ [t]) hnd.2 ?_, List.append_assoc]
    · rfl
    · intro u hu
      rw [List.any_append, hdis u (List.mem_cons_of_mem t hu)]
      simp only [List.any_cons, List.any_nil, Bool.or_false, Bool.false_or]
      have hne : t.cid ≠ u.cid := by
        intro hcc
        exact hnd.1 (hcc ▸ List.mem_map_of_mem Tag.cid hu)
      simp [hne]

theorem lookupTag_foldl : ∀ l : List Tag, ((l.map Tag.cid).Nodup) →
    ∀ (m : List Tag) (cid : String),
    lookupTag cid (l.foldl mergeInto m) =
      match lookupTag cid m, lookupTag cid l with
      | some a, some b => some (mergeTag a b)
      | some a, none => some a
      | none, r => r := by
  intro l
  induction l with
  | nil =>
    intro _ m cid
    simp only [List.foldl_nil]
    have h0 : lookupTag cid ([] : List Tag) = none := rfl
    rw [h0]
    cases hm : lookupTag cid m <;> rfl
  | cons t ts ih =>
    intro hnd m cid
    simp only [List.map_cons, List.nodup_cons] at hnd
    simp only [List.foldl_cons]
    rw [ih hnd.2 (mergeInto m t) cid, lookupTag_mergeInto]
    by_cases ht : t.cid = cid
    · have h1 : lookupTag cid (t :: ts) = some t := by
        unfold lookupTag
        rw [List.find?_cons_of_pos _ (by simp [ht])]
      have h2 : lookupTag cid ts = none := by
        unfold lookupTag
        rw [List.find?_eq_none]
        intro x hx hbx
        apply hnd.1
        have hxc : x.cid = cid := by simpa using hbx
        have hx' : x.cid ∈ ts.map Tag.cid := List.mem_map_of_mem Tag.cid hx
        rw [hxc, ← ht] at hx'
        exact hx'
      rw [h1, h2, if_pos ht]
      cases hm : lookupTag cid m <;> rfl
    · have h1 : lookupTag cid (t :: ts) = lookupTag cid ts := by
        unfold lookupTag
        rw [List.find?_cons_of_neg _ (by simp; exact fun h => ht h)]
      rw [h1, if_neg ht]

theorem nodup_mergeInto (m : List Tag) (t : Tag) (h : (m.map Tag.cid).Nodup) :
    ((mergeInto m t).map Tag.cid).Nodup := by
  unfold mergeInto
  by_cases hany : m.any (fun e => e.cid == t.cid) = true
  · rw [if_pos hany]
    have hmm : (m.map (fun e => if (e.cid == t.cid) = true then mergeTag e t else e)).map Tag.cid
        = m.map Tag.cid := by
      rw [List.map_map]
      apply List.map_congr_left
      intro e _
      simp only [Function.comp]
      split <;> rfl
    rw [hmm]
    exact h
  · rw [if_neg hany, List.map_append]
    rw [List.nodup_append]
    refine ⟨h, List.nodup_singleton _, ?_⟩
    intro a ha hb
    simp only [List.map_cons, List.map_nil, List.mem_singleton] at hb
    subst hb
    apply hany
    rw [List.any_eq_true]
    obtain ⟨e, hme, hce⟩ := List.mem_map.mp ha
    exact ⟨e, hme, by simp [hce]⟩

theorem nodup_foldl_mergeInto : ∀ (l m : List Tag), ((m.map Tag.cid).Nodup) →
    (((l.foldl mergeInto m).map Tag.cid).Nodup) := by
  intro l
  induction l with
  | nil => intro m h; simpa using h
  | cons t ts ih =>
    intro m h
    simp only [List.foldl_cons]
    exact ih (mergeInto m t) (nodup_mergeInto m t h)

/-- C3 (counterexample): on the content
`"two-factor mfa authentication privileged"` the content pass produces two
matches for `SOC2-CC6.2` (pattern match at confidence 0.7 and keyword
match at 0.8), yet the surviving entry keeps the first match's 0.7
confidence rather than the maximum 0.8. -/
theorem c3_counterexample :
    ((rawContentTags "two-factor mfa authentication privileged").filter
        (fun t => t.cid == "SOC2-CC6.2")).map Tag.confidence = [7/10, 4/5] ∧
    (lookupTag "SOC2-CC6.2" (auto_tag "" "" "two-factor mfa authentication privileged")).map
        Tag.confidence = some (7/10) ∧
    ¬ ((7 : ℚ)/10 = max (7/10) (4/5)) := by
  refine ⟨by with_unfolding_all decide, by with_unfolding_all decide,
    by with_unfolding_all decide⟩

/-- C3 (amended): the combined auto-tag result has at most one entry per
control id.  Duplicates arising within a single pass are resolved by
keeping only the first match (the pass-level dedup loops discard later
matches outright), while a control id produced by both the source pass and
the content pass is merged with concatenated reasoning and the maximum
confidence. -/
theorem c3_merge_behaviour :
    (∀ source filename content, ((auto_tag source filename content).map Tag.cid).Nodup) ∧
    (∀ content cid, lookupTag cid (auto_tag_from_content content) =
        lookupTag cid (rawContentTags content)) ∧
    (∀ source filename content cid t1 t2, content ≠ "" →
        lookupTag cid (auto_tag_from_source source filename) = some t1 →
        lookupTag cid (auto_tag_from_content content) = some t2 →
        lookupTag cid (auto_tag source filename content) = some (mergeTag t1 t2)) ∧
    (∀ source filename content cid t1, content ≠ "" →
        lookupTag cid (auto_tag_from_source source filename) = some t1 →
        lookupTag cid (auto_tag_from_content content) = none →
        lookupTag cid (auto_tag source filename content) = some t1) ∧
    (∀ source filename content cid, content ≠ "" →
        lookupTag cid (auto_tag_from_source source filename) = none →
        lookupTag cid (auto_tag source filename content) =
          lookupTag cid (auto_tag_from_content content)) := by
  have hsetup : ∀ source filename content cid, content ≠ "" →
      lookupTag cid (auto_tag source filename content) =
        match lookupTag cid (auto_tag_from_source source filename),
              lookupTag cid (auto_tag_from_content content) with
        | some a, some b => some (mergeTag a b)
        | some a, none => some a
        | none, r => r := by
    intro s f c cid hc
    have hstn : ((auto_tag_from_source s f).map Tag.cid).Nodup := (dedupTagsGo_cids _ []).1
    have hctn : ((auto_tag_from_content c).map Tag.cid).Nodup := (dedupTagsGo_cids _ []).1
    simp only [auto_tag]
    rw [if_neg hc, List.foldl_append,
      foldl_mergeInto_disjoint (auto_tag_from_source s f) [] hstn (fun t _ => rfl),
      List.nil_append,
      lookupTag_foldl (auto_tag_from_content c) hctn (auto_tag_from_source s f) cid]
  refine ⟨?_, ?_, ?_, ?_, ?_⟩
  · intro s f c
    exact nodup_foldl_mergeInto _ [] List.nodup_nil
  · intro c cid
    exact dedupTagsGo_find _ [] cid rfl
  · intro s f c cid t1 t2 hc h1 h2
    rw [hsetup s f c cid hc, h1, h2]
  · intro s f c cid t1 hc h1 h2
    rw [hsetup s f c cid hc, h1, h2]
  · intro s f c cid hc h1
    rw [hsetup s f c cid hc, h1]

theorem c3_merge_behaviour_witness :
    ("vulnerability scan" : String) ≠ "" ∧
    (∃ t1 t2,
      lookupTag "SWIFT-2.7" (auto_tag_from_source "tenable" "") = some t1 ∧
      lookupTag "SWIFT-2.7" (auto_tag_from_content "vulnerability scan") = some t2 ∧
      lookupTag "SWIFT-2.7" (auto_tag "tenable" "" "vulnerability scan") =
        some (mergeTag t1 t2)) := by
  refine ⟨by decide, ?_⟩
  rcases hs : lookupTag "SWIFT-2.7" (auto_tag_from_source "tenable" "") with _ | t1
  · exact absurd hs (by with_unfolding_all decide)
  · rcases hcnt : lookupTag "SWIFT-2.7" (auto_tag_from_content "vulnerability scan") with _ | t2
    · exact absurd hcnt (by with_unfolding_all decide)
    · exact ⟨t1, t2, rfl, rfl,
        c3_merge_behaviour.2.2.1 "tenable" "" "vulnerability scan" "SWIFT-2.7" t1 t2
          (by decide) hs hcnt⟩

/-! ## Claim C1: linkage score bounds -/

theorem bestCtrl_fold_spec (kws : List String) : ∀ (l : List ControlInfo)
    (acc : Option ControlInfo × ℚ),
    l.foldl (bestStep kws) acc = acc ∨
    ∃ c ∈ l, l.foldl (bestStep kws) acc = (some c, keywordScore c kws) := by
  intro l
  induction l with
  | nil => intro acc; exact Or.inl rfl
  | cons c cs ih =>
    intro acc
    simp only [List.foldl_cons]
    by_cases hlt : acc.2 < keywordScore c kws
    · have hstep : bestStep kws acc c = (some c, keywordScore c kws) := by
        unfold bestStep
        rw [if_pos hlt]
      rw [hstep]
      rcases ih (some c, keywordScore c kws) with h | ⟨c', hc', h⟩
      · exact Or.inr ⟨c, List.mem_cons_self c cs, h⟩
      · exact Or.inr ⟨c', List.mem_cons_of_mem _ hc', h⟩
    · have hstep : bestStep kws acc c = acc := by
        unfold bestStep
        rw [if_neg hlt]
      rw [hstep]
      rcases ih acc with h | ⟨c', hc', h⟩
      · exact Or.inl h
      · exact Or.inr ⟨c', List.mem_cons_of_mem _ hc', h⟩

theorem keywordScore_bounds (c : ControlInfo) (kws : List String) (hc : c ∈ CONTROL_MAPPINGS) :
    0 ≤ keywordScore c kws ∧ keywordScore c kws ≤ (kws.length : ℚ) / 5 := by
  have hlen : c.keywords.length = 5 := by
    fin_cases hc <;> rfl
  unfold keywordScore
  rw [hlen, if_pos (by norm_num)]
  constructor
  · positivity
  · have hcnt : kwMatchCount c kws ≤ kws.length := List.length_filter_le _ _
    have hcast : (kwMatchCount c kws : ℚ) ≤ (kws.length : ℚ) := by exact_mod_cast hcnt
    have h5 : ((5 : Nat) : ℚ) = 5 := by norm_num
    rw [h5]
    gcongr

/-- C1 (counterexample): from the log content
`"authentication mfa two-factor 2fa user: mylogin"` the mapper extracts
six distinct keywords all fuzzily matching the five keywords of the MFA
control, so the fallback score — and the linkageScore stored on the
created EvidenceLinkage — is 6/5, strictly greater than 1. -/
theorem c1_counterexample :
    ((match_control_fallback (extractKeywords
        "authentication mfa two-factor 2fa user: mylogin")).map (fun p => p.2)) =
      some (6/5) ∧
    ((map_log_to_controls AIOutcome.unavailable
        ⟨1, "h", "authentication mfa two-factor 2fa user: mylogin", "SWIFT"⟩).map
        EvidenceObject.linkageScore) = [6/5] ∧
    (1 : ℚ) < 6/5 := by
  refine ⟨by with_unfolding_all decide, by with_unfolding_all decide, by norm_num⟩

/-- C1 (amended): a manual link always stores linkageScore 1 ∈ [0,1]; the
fallback matcher's accepted score is nonnegative and at most
(number of extracted keywords)/5 (every control of
`settings.CONTROL_MAPPINGS` has exactly five keywords), hence lies in
[0,1] whenever at most five distinct keywords were extracted — but it is
not bounded by 1 in general. -/
theorem c1_score_bounds :
    (∀ (kws : List String) (m : ControlInfo × ℚ), match_control_fallback kws = some m →
       0 ≤ m.2 ∧ m.2 ≤ (kws.length : ℚ) / 5 ∧ (kws.length ≤ 5 → m.2 ≤ 1)) ∧
    (∀ (logId docId : Nat) (cid src dt : String) (r : ℚ × String × String),
       create_log_document_linkage logId docId cid src dt = some r → r.1 = 1) := by
  constructor
  · intro kws m h
    unfold match_control_fallback at h
    by_cases hth : (3 : ℚ)/10 < (bestCtrl kws).2
    · rw [if_pos hth] at h
      rcases bestCtrl_fold_spec kws CONTROL_MAPPINGS (none, 0) with hb | ⟨c, hcmem, hb⟩
      · rw [show bestCtrl kws = (none, 0) from hb] at hth
        norm_num at hth
      · rw [show bestCtrl kws = (some c, keywordScore c kws) from hb] at h
        simp only [Option.map, Option.some.injEq] at h
        obtain ⟨h0, h1⟩ := keywordScore_bounds c kws hcmem
        subst h
        refine ⟨h0, h1, ?_⟩
        intro hle
        calc keywordScore c kws ≤ (kws.length : ℚ) / 5 := h1
          _ ≤ 5 / 5 := by gcongr; exact_mod_cast hle
          _ = 1 := by norm_num
    · rw [if_neg hth] at h
      exact absurd h (by simp)
  · intro logId docId cid src dt r h
    unfold create_log_document_linkage at h
    rcases hf : CONTROL_MAPPINGS.find? (fun c => c.controlId == cid) with _ | c
    · rw [hf] at h
      simp only [Option.map] at h
      exact Option.noConfusion h
    · rw [hf] at h
      simp only [Option.map, Option.some.injEq] at h
      rw [← h]

theorem c1_score_bounds_witness :
    (∃ m : ControlInfo × ℚ, match_control_fallback ["mfa", "2fa"] = some m ∧
       0 ≤ m.2 ∧ m.2 ≤ (([("mfa" : String), "2fa"]).length : ℚ) / 5 ∧ m.2 ≤ 1) ∧
    (∃ r : ℚ × String × String,
       create_log_document_linkage 1 2 "AC-001" "SWIFT" "Policy" = some r ∧ r.1 = 1) := by
  constructor
  · rcases hm : match_control_fallback ["mfa", "2fa"] with _ | m
    · exact absurd hm (by with_unfolding_all decide)
    · obtain ⟨h0, h1, h2⟩ := c1_score_bounds.1 _ _ hm
      exact ⟨m, rfl, h0, h1, h2 (by decide)⟩
  · rcases hr : create_log_document_linkage 1 2 "AC-001" "SWIFT" "Policy" with _ | r
    · exact absurd hr (by decide)
    · exact ⟨r, rfl, c1_score_bounds.2 1 2 "AC-001" "SWIFT" "Policy" r hr⟩

/-! ## Claim C4: matcher acceptance thresholds and single-linkage shape -/

/-- C4: the fallback matcher accepts a control only with score strictly
above 0.3; the AI path accepts a returned response only with confidence at
least 0.4 (and stores exactly that confidence); a mapping call creates at
most one EvidenceLinkage; and when no control is accepted the call returns
an empty list rather than raising an error. -/
theorem c4_matcher_thresholds :
    (∀ (kws : List String) (m : ControlInfo × ℚ), match_control_fallback kws = some m →
       3/10 < m.2) ∧
    (∀ (r : AIRes) (kws : List String) (cm : CtrlMatch),
       match_control_with_ai (AIOutcome.returned (some r)) kws = some cm →
         2/5 ≤ r.confidence ∧ cm.score = r.confidence) ∧
    (∀ (o : AIOutcome) (log : DLog), (map_log_to_controls o log).length ≤ 1) ∧
    (∀ (o : AIOutcome) (log : DLog),
       match_control o (extractKeywords log.content) log.content = none →
         map_log_to_controls o log = []) := by
  refine ⟨?_, ?_, ?_, ?_⟩
  · intro kws m h
    unfold match_control_fallback at h
    by_cases hth : (3 : ℚ)/10 < (bestCtrl kws).2
    · rw [if_pos hth] at h
      rcases hb : (bestCtrl kws).1 with _ | c
      · rw [hb] at h
        simp only [Option.map] at h
        exact Option.noConfusion h
      · rw [hb] at h
        simp only [Option.map, Option.some.injEq] at h
        rw [← h]
        exact hth
    · rw [if_neg hth] at h
      exact absurd h (by simp)
  · intro r kws cm h
    unfold match_control_with_ai at h
    dsimp only at h
    by_cases hc : r.confidence < 2/5
    · rw [if_pos hc] at h
      exact absurd h (by simp)
    · rw [if_neg hc] at h
      refine ⟨le_of_not_lt hc, ?_⟩
      rcases hf : CONTROL_MAPPINGS.find? (fun c => c.controlId == r.controlId) with _ | c
      · rw [hf] at h
        simp only [Option.map] at h
        exact Option.noConfusion h
      · rw [hf] at h
        simp only [Option.map, Option.some.injEq] at h
        rw [← h]
  · intro o log
    simp only [map_log_to_controls]
    rcases hm : match_control o (extractKeywords log.content) log.content with _ | cm <;> simp
  · intro o log h
    simp only [map_log_to_controls]
    rw [h]

theorem c4_matcher_thresholds_witness :
    (∃ m : ControlInfo × ℚ, match_control_fallback ["mfa", "2fa"] = some m ∧ 3/10 < m.2) ∧
    (∃ cm : CtrlMatch,
       match_control_with_ai (AIOutcome.returned (some ⟨"AC-001", 1/2, "matched"⟩)) [] =
         some cm ∧ (2 : ℚ)/5 ≤ 1/2 ∧ cm.score = 1/2) ∧
    (match_control AIOutcome.unavailable (extractKeywords "") "" = none ∧
       map_log_to_controls AIOutcome.unavailable ⟨1, "h", "", "SWIFT"⟩ = []) := by
  refine ⟨?_, ?_, ?_, ?_⟩
  · rcases hm : match_control_fallback ["mfa", "2fa"] with _ | m
    · exact absurd hm (by with_unfolding_all decide)
    · exact ⟨m, rfl, c4_matcher_thresholds.1 _ _ hm⟩
  · rcases hm : match_control_with_ai (AIOutcome.returned (some ⟨"AC-001", 1/2, "matched"⟩)) []
        with _ | cm
    · exact absurd hm (by with_unfolding_all decide)
    · exact ⟨cm, rfl, c4_matcher_thresholds.2.1 _ _ _ hm⟩
  · exact (by with_unfolding_all decide)
  · exact c4_matcher_thresholds.2.2.2 AIOutcome.unavailable ⟨1, "h", "", "SWIFT"⟩
      (by with_unfolding_all decide)

/-! ## Claim C5: duplicate-content rejection -/

/-- C5: re-ingesting identical bytes — under any filename and source (or
document type) — fails with a duplicate-content error carrying the
existing record's id, and the vault state (rows and stored files) is
returned unchanged; the existing record is never overwritten. -/
theorem c5_duplicate_rejected :
    (∀ (s : VaultSt) (c : List Nat) (fn src : String) (s' : VaultSt) (r : VLog)
       (fn' src' : String),
       ingest_log s c fn src = (s', Except.ok r) →
       ingest_log s' c fn' src' =
         (s', Except.error ("Log with hash " ++ ingest_log_hash c ++ " already exists", r.id))) ∧
    (∀ (s : VaultSt) (c : List Nat) (fn dt et : String) (s' : VaultSt) (r : VDoc)
       (fn' dt' et' : String),
       ingest_document s c fn dt et = (s', Except.ok r) →
       ingest_document s' c fn' dt' et' =
         (s', Except.error ("Document with hash " ++ ingest_document_hash c ++
           " already exists", r.id))) := by
  constructor
  · intro s c fn src s' r fn' src' hok
    simp only [ingest_log] at hok
    rcases hfind : s.logs.find? (fun rr => rr.hash == ingest_log_hash c) with _ | ex
    · rw [hfind] at hok
      rw [Prod.mk.injEq] at hok
      obtain ⟨hs', hr⟩ := hok
      rw [Except.ok.injEq] at hr
      subst hr
      subst hs'
      simp only [ingest_log]
      rw [List.find?_append, hfind]
      rw [List.find?_cons_of_pos _ (by simp)]
      rfl
    · rw [hfind] at hok
      simp at hok
  · intro s c fn dt et s' r fn' dt' et' hok
    simp only [ingest_document] at hok
    rcases hfind : s.docs.find? (fun rr => rr.hash == ingest_document_hash c) with _ | ex
    · rw [hfind] at hok
      rw [Prod.mk.injEq] at hok
      obtain ⟨hs', hr⟩ := hok
      rw [Except.ok.injEq] at hr
      subst hr
      subst hs'
      simp only [ingest_document]
      rw [List.find?_append, hfind]
      rw [List.find?_cons_of_pos _ (by simp)]
      rfl
    · rw [hfind] at hok
      simp at hok

theorem c5_duplicate_rejected_witness :
    (∃ (s' : VaultSt) (r : VLog),
       ingest_log vault0 [97, 98] "a.log" "SWIFT" = (s', Except.ok r) ∧
       ingest_log s' [97, 98] "b.log" "FPS" =
         (s', Except.error ("Log with hash " ++ ingest_log_hash [97, 98] ++ " already exists",
           r.id))) ∧
    (∃ (s' : VaultSt) (r : VDoc),
       ingest_document vault0 [1, 2] "a.pdf" "Policy" "" = (s', Except.ok r) ∧
       ingest_document s' [1, 2] "b.pdf" "Audit" "x" =
         (s', Except.error ("Document with hash " ++ ingest_document_hash [1, 2] ++
           " already exists", r.id))) := by
  constructor
  · rcases heq : ingest_log vault0 [97, 98] "a.log" "SWIFT" with ⟨s', res⟩
    cases res with
    | error e =>
      have hnone : (ingest_log vault0 [97, 98] "a.log" "SWIFT").2.toOption = none := by
        rw [heq]; rfl
      exact absurd hnone (by with_unfolding_all decide)
    | ok r =>
      exact ⟨s', r, rfl, c5_duplicate_rejected.1 vault0 [97, 98] "a.log" "SWIFT" s' r
        "b.log" "FPS" heq⟩
  · rcases heq : ingest_document vault0 [1, 2] "a.pdf" "Policy" "" with ⟨s', res⟩
    cases res with
    | error e =>
      have hnone : (ingest_document vault0 [1, 2] "a.pdf" "Policy" "").2.toOption = none := by
        rw [heq]; rfl
      exact absurd hnone (by with_unfolding_all decide)
    | ok r =>
      exact ⟨s', r, rfl, c5_duplicate_rejected.2 vault0 [1, 2] "a.pdf" "Policy" "" s' r
        "b.pdf" "Audit" "x" heq⟩

/-! ## Claim C6: zero-copied-files abort -/

/-- C6: when validation passes but every evidence copy fails,
`generate_assurance_pack` aborts with an error, the freshly created
working directory is deleted again, and no AssurancePack record (and no
zip) is persisted — only the query audit row written on the way remains. -/
theorem c6_zero_copy_abort (st : PackSt) (packId query : String) (startT endT : Int)
    (queryItems : List PEvItem) (explicitLogs explicitDocs : List (Nat × Bool)) (dbOk : Bool)
    (hv1 : startT < endT) (hv2 : endT - startT ≤ 3650)
    (hfresh : packId ∉ st.dirs)
    (hne : mergeExplicit queryItems explicitLogs explicitDocs ≠ [])
    (hfail : ∀ e ∈ mergeExplicit queryItems explicitLogs explicitDocs, e.copyOk = false) :
    (generate_assurance_pack st packId query startT endT queryItems explicitLogs
        explicitDocs dbOk).2 = Except.error "Failed to copy any evidence files" ∧
    (generate_assurance_pack st packId query startT endT queryItems explicitLogs
        explicitDocs dbOk).1.dirs = st.dirs ∧
    (generate_assurance_pack st packId query startT endT queryItems explicitLogs
        explicitDocs dbOk).1.zips = st.zips ∧
    (generate_assurance_pack st packId query startT endT queryItems explicitLogs
        explicitDocs dbOk).1.packs = st.packs := by
  have hsucc : ((mergeExplicit queryItems explicitLogs explicitDocs).filter
      (fun e => e.copyOk)).length = 0 := by
    rw [List.length_eq_zero, List.filter_eq_nil_iff]
    intro a ha
    rw [hfail a ha]
    simp
  have herase : ((st.dirs ++ [packId]).erase packId) = st.dirs := by
    rw [List.erase_append_right _ hfresh, List.erase_cons_head, List.append_nil]
  simp only [generate_assurance_pack]
  rw [if_neg (by omega), if_neg (by omega),
    if_neg (fun hz => hne (List.length_eq_zero.mp hz)), if_pos hsucc]
  exact ⟨rfl, herase, rfl, rfl⟩

theorem c6_zero_copy_abort_witness :
    ((0 : Int) < 1 ∧ (1 : Int) - 0 ≤ 3650 ∧ ("PACK-1" : String) ∉ ([] : List String) ∧
     mergeExplicit [⟨"log", 1, false⟩] [] [] ≠ [] ∧
     ∀ e ∈ mergeExplicit [⟨"log", 1, false⟩] [] [], e.copyOk = false) ∧
    (generate_assurance_pack ⟨[], [], [], []⟩ "PACK-1" "q" 0 1 [⟨"log", 1, false⟩] [] []
        true).2 = Except.error "Failed to copy any evidence files" ∧
    (generate_assurance_pack ⟨[], [], [], []⟩ "PACK-1" "q" 0 1 [⟨"log", 1, false⟩] [] []
        true).1.dirs = ([] : List String) := by
  have h := c6_zero_copy_abort ⟨[], [], [], []⟩ "PACK-1" "q" 0 1 [⟨"log", 1, false⟩] [] [] true
    (by decide) (by decide) (by decide) (by decide) (by decide)
  exact ⟨⟨by decide, by decide, by decide, by decide, by decide⟩, h.1, h.2.1⟩

/-! ## Claim C8: temporal gap detection -/

theorem requiredFreq_annual (q : String) (h : hasSubL ("annual".data) (lowerChars q) = true) :
    requiredFreq (lowerChars q) = some 365 := by
  have hfind : List.find? (fun kv : String × Nat => hasSubL kv.1.data (lowerChars q))
      temporalKeywords = some ("annual", 365) := by
    unfold temporalKeywords
    exact List.find?_cons_of_pos _ h
  unfold requiredFreq
  rw [hfind]
  rfl

theorem gapsForQuestion_temporal (cid q : String) (ev : List GEvItem) (now : Int) (d : Nat)
    (t : Int)
    (hreq : requiredFreq (lowerChars q) = some d)
    (hmax : listMaxInt ((ev.filter (questionRelevant (lowerChars q))).filterMap
      GEvItem.ingestedAt) = some t) :
    (gapsForQuestion cid q ev now).filter (fun g => g.gtype == "temporal_gap") =
      (if (d : Int) < now - t then
        [⟨"temporal_gap", some cid, q, if (d : Int) * 2 < now - t then "high" else "medium",
          some (now - t - (d : Int)), some d⟩]
      else []) := by
  have hrelne : (ev.filter (questionRelevant (lowerChars q))).isEmpty = false := by
    cases hrel : ev.filter (questionRelevant (lowerChars q)) with
    | nil =>
      rw [hrel] at hmax
      simp [listMaxInt] at hmax
    | cons a as => rfl
  simp only [gapsForQuestion]
  rw [hreq, hmax]
  rw [if_neg (by rw [hrelne]; simp), if_neg (by rw [hrelne]; simp)]
  dsimp only
  by_cases hlt : (d : Int) < now - t
  · rw [if_pos hlt]
    simp
  · rw [if_neg hlt]
    rfl

/-- C8: a question containing the temporal word "annual" carries a 365-day
requirement (first match in the keyword table); whenever matching evidence
with a freshest timestamp exists, a `temporal_gap` is emitted exactly when
the age exceeds the requirement, with `days_overdue` equal to the excess
and severity `high` exactly when the age exceeds twice the requirement
(`medium` otherwise); in particular an "annual" question whose freshest
matching evidence is 400 days old yields a medium temporal gap with
`days_overdue = 35`. -/
theorem c8_temporal_gap :
    (∀ q : String, hasSubL ("annual".data) (lowerChars q) = true →
       requiredFreq (lowerChars q) = some 365) ∧
    (∀ (cid q : String) (ev : List GEvItem) (now : Int) (d : Nat) (t : Int),
       requiredFreq (lowerChars q) = some d →
       listMaxInt ((ev.filter (questionRelevant (lowerChars q))).filterMap
         GEvItem.ingestedAt) = some t →
       (gapsForQuestion cid q ev now).filter (fun g => g.gtype == "temporal_gap") =
         (if (d : Int) < now - t then
           [⟨"temporal_gap", some cid, q, if (d : Int) * 2 < now - t then "high" else "medium",
             some (now - t - (d : Int)), some d⟩]
         else [])) ∧
    (∀ (cid q : String) (ev : List GEvItem) (now : Int) (t : Int),
       hasSubL ("annual".data) (lowerChars q) = true →
       listMaxInt ((ev.filter (questionRelevant (lowerChars q))).filterMap
         GEvItem.ingestedAt) = some t →
       now - t = 400 →
       ∃ g ∈ gapsForQuestion cid q ev now,
         g.gtype = "temporal_gap" ∧ g.daysOverdue = some 35 ∧ g.severity = "medium") := by
  refine ⟨requiredFreq_annual, gapsForQuestion_temporal, ?_⟩
  intro cid q ev now t hann hmax h400
  have hfilter := gapsForQuestion_temporal cid q ev now 365 t (requiredFreq_annual q hann) hmax
  rw [h400] at hfilter
  rw [if_pos (by omega), if_neg (by omega)] at hfilter
  have hmem : (⟨"temporal_gap", some cid, q, "medium", some (400 - (365 : Int)),
      some 365⟩ : Gap) ∈ (gapsForQuestion cid q ev now).filter
        (fun g => g.gtype == "temporal_gap") := by
    rw [hfilter]
    simp
  refine ⟨_, List.mem_of_mem_filter hmem, rfl, by norm_num, rfl⟩

theorem c8_temporal_gap_witness :
    (hasSubL ("annual".data) (lowerChars "Annual review performed?") = true ∧
     listMaxInt ((([⟨"annual evidence", some 0⟩] : List GEvItem).filter
       (questionRelevant (lowerChars "Annual review performed?"))).filterMap
         GEvItem.ingestedAt) = some 0 ∧
     (400 : Int) - 0 = 400) ∧
    (∃ g ∈ gapsForQuestion "SWIFT-2.7" "Annual review performed?"
        [⟨"annual evidence", some 0⟩] 400,
       g.gtype = "temporal_gap" ∧ g.daysOverdue = some 35 ∧ g.severity = "medium") := by
  refine ⟨⟨by decide, by decide, by decide⟩, ?_⟩
  exact c8_temporal_gap.2.2 "SWIFT-2.7" "Annual review performed?"
    [⟨"annual evidence", some 0⟩] 400 0 (by decide) (by decide) (by decide)

/-! ## Claim C9: cache expiry semantics -/

theorem cacheGet_expired {α : Type} (c : List (String × α × ℚ)) (now : ℚ) (k k' : String)
    (v : α) (exp : ℚ)
    (hfind : c.find? (fun e => e.1 == k) = some (k', v, exp)) (hexp : exp < now) :
    cacheGet c now k = (c.filter (fun x => x.1 != k), none) := by
  unfold cacheGet
  rw [hfind]
  dsimp only
  rw [if_pos hexp]

theorem cacheGet_fresh {α : Type} (c : List (String × α × ℚ)) (now : ℚ) (k k' : String)
    (v : α) (exp : ℚ)
    (hfind : c.find? (fun e => e.1 == k) = some (k', v, exp)) (hexp : ¬ exp < now) :
    cacheGet c now k = (c, some v) := by
  unfold cacheGet
  rw [hfind]
  dsimp only
  rw [if_neg hexp]

theorem find?_cacheSet {α : Type} (c : List (String × α × ℚ)) (k : String) (v : α)
    (now ttl : ℚ) :
    (cacheSet c k v now ttl).find? (fun e => e.1 == k) = some (k, v, now + ttl) := by
  unfold cacheSet
  by_cases hany : c.any (fun e => e.1 == k) = true
  · rw [if_pos hany]
    rw [List.find?_map]
    have hpg : ((fun e : String × α × ℚ => e.1 == k) ∘
        (fun e : String × α × ℚ => if e.1 == k then (k, v, now + ttl) else e)) =
        (fun e : String × α × ℚ => e.1 == k) := by
      funext e
      by_cases he : (e.1 == k) = true
      · simp [Function.comp, he]
      · simp [Function.comp, he]
    rw [hpg]
    have hsome : (c.find? (fun e => e.1 == k)).isSome := by
      rw [List.find?_isSome]
      exact List.any_eq_true.mp hany
    obtain ⟨e1, he1⟩ := Option.isSome_iff_exists.mp hsome
    have hp1 : (e1.1 == k) = true := by simpa using List.find?_some he1
    rw [he1]
    simp only [Option.map]
    rw [if_pos hp1]
  · rw [if_neg hany]
    rw [List.find?_append]
    have hnone : c.find? (fun e => e.1 == k) = none := by
      rw [List.find?_eq_none]
      intro x hx hpx
      exact hany (List.any_eq_true.mpr ⟨x, hx, hpx⟩)
    rw [hnone, Option.none_or]
    exact @List.find?_cons_of_pos (String × α × ℚ) (fun e => e.1 == k) (k, v, now + ttl) []
      (by simp)

theorem cacheGet_cacheSet {α : Type} (c : List (String × α × ℚ)) (k : String) (v : α)
    (now ttl now' : ℚ) (h : ¬ now + ttl < now') :
    cacheGet (cacheSet c k v now ttl) now' k = (cacheSet c k v now ttl, some v) := by
  unfold cacheGet
  rw [find?_cacheSet]
  dsimp only
  rw [if_neg h]

theorem parse_with_cache_hit {α : Type} (fallback provider : String → α)
    (c c' : List (String × α × ℚ)) (now : ℚ) (q : String) (v : α)
    (h : cacheGet c now (parseQueryKey q) = (c', some v)) :
    parse_with_cache true fallback provider c now q = (v, c', 0) := by
  simp only [parse_with_cache, Bool.not_true]
  rw [if_neg (by simp)]
  rw [h]

/-- C9: cache reads are lazily evicting and TTL-faithful.  (i) When the
entry found under a key has expired (`expires_at` strictly before `now`),
`get` deletes it and reports a miss; (ii) when it has not expired, `get`
returns exactly the stored value and leaves the cache unchanged; (iii) a
`set` followed by a `get` at any time not past `now + ttl` returns the
value just stored; (iv) the query parser with an unexpired cached entry
returns the cached value with zero provider invocations. -/
theorem c9_cache_semantics :
    (∀ (α : Type) (c : List (String × α × ℚ)) (now : ℚ) (k k' : String) (v : α) (exp : ℚ),
       c.find? (fun e => e.1 == k) = some (k', v, exp) → exp < now →
       cacheGet c now k = (c.filter (fun x => x.1 != k), none)) ∧
    (∀ (α : Type) (c : List (String × α × ℚ)) (now : ℚ) (k k' : String) (v : α) (exp : ℚ),
       c.find? (fun e => e.1 == k) = some (k', v, exp) → ¬ exp < now →
       cacheGet c now k = (c, some v)) ∧
    (∀ (α : Type) (c : List (String × α × ℚ)) (k : String) (v : α) (now ttl now' : ℚ),
       ¬ now + ttl < now' →
       cacheGet (cacheSet c k v now ttl) now' k = (cacheSet c k v now ttl, some v)) ∧
    (∀ (α : Type) (fallback provider : String → α) (c c' : List (String × α × ℚ))
       (now : ℚ) (q : String) (v : α),
       cacheGet c now (parseQueryKey q) = (c', some v) →
       parse_with_cache true fallback provider c now q = (v, c', 0)) :=
  ⟨fun _ => cacheGet_expired, fun _ => cacheGet_fresh, fun _ => cacheGet_cacheSet,
   fun _ => parse_with_cache_hit⟩

theorem c9_cache_semantics_witness :
    cacheGet [("k", (1 : Nat), (5 : ℚ))] 10 "k"
      = (List.filter (fun x => x.1 != "k") [("k", (1 : Nat), (5 : ℚ))], none) ∧
    cacheGet [("k", (1 : Nat), (5 : ℚ))] 4 "k" = ([("k", (1 : Nat), (5 : ℚ))], some 1) ∧
    cacheGet (cacheSet ([] : List (String × Nat × ℚ)) "k" 2 0 18000) 100 "k"
      = (cacheSet ([] : List (String × Nat × ℚ)) "k" 2 0 18000, some 2) ∧
    parse_with_cache true (fun _ => (0 : Nat)) (fun _ => (7 : Nat))
        [(parseQueryKey "q", (3 : Nat), (100 : ℚ))] 50 "q"
      = (3, [(parseQueryKey "q", (3 : Nat), (100 : ℚ))], 0) := by
  refine ⟨?_, ?_, ?_, ?_⟩
  · exact c9_cache_semantics.1 Nat [("k", 1, 5)] 10 "k" "k" 1 5 (by rfl)
      (by with_unfolding_all decide)
  · exact c9_cache_semantics.2.1 Nat [("k", 1, 5)] 4 "k" "k" 1 5 (by rfl)
      (by with_unfolding_all decide)
  · exact c9_cache_semantics.2.2.1 Nat [] "k" 2 0 18000 100 (by with_unfolding_all decide)
  · exact c9_cache_semantics.2.2.2 Nat (fun _ => 0) (fun _ => 7)
      [(parseQueryKey "q", 3, 100)] [(parseQueryKey "q", 3, 100)] 50 "q" 3
      (by with_unfolding_all decide)

/-! ## Claim C10: fallback relevance scores always pass the 0.3 filter -/

theorem fallback_relevance_bounds (q c : String) :
    1/2 ≤ fallback_relevance_score q c ∧ fallback_relevance_score q c ≤ 1 := by
  unfold fallback_relevance_score
  refine ⟨le_min ?_ (by norm_num), min_le_right _ _⟩
  have h : (0 : ℚ) ≤ (countQueryWords q c : ℚ) * (1/10) := by positivity
  linarith

theorem filterLowRelevance_fallback (items : List QItem)
    (h : ∀ i ∈ items, ∃ q c, i.score = fallback_relevance_score q c) :
    filterLowRelevance items = items := by
  unfold filterLowRelevance
  rw [List.filter_eq_self]
  intro i hi
  obtain ⟨q, c, hs⟩ := h i hi
  simp only [decide_eq_true_eq]
  rw [hs]
  have hb := fallback_relevance_bounds q c
  linarith [hb.1]

/-- C10: the heuristic fallback relevance score
`min(0.5 + 0.1 * matches, 1.0)` always lies in the interval [0.5, 1];
consequently the `query_evidence` filter dropping items scoring below 0.3
keeps every item whose score came from the fallback scorer. -/
theorem c10_fallback_relevance :
    (∀ q c : String,
       1/2 ≤ fallback_relevance_score q c ∧ fallback_relevance_score q c ≤ 1) ∧
    (∀ items : List QItem,
       (∀ i ∈ items, ∃ q c, i.score = fallback_relevance_score q c) →
       filterLowRelevance items = items) :=
  ⟨fallback_relevance_bounds, filterLowRelevance_fallback⟩

theorem c10_fallback_relevance_witness :
    (1/2 ≤ fallback_relevance_score "alpha beta" "alpha only" ∧
     fallback_relevance_score "alpha beta" "alpha only" ≤ 1) ∧
    filterLowRelevance [⟨"log", 1, fallback_relevance_score "alpha beta" "alpha only"⟩]
      = [⟨"log", 1, fallback_relevance_score "alpha beta" "alpha only"⟩] := by
  refine ⟨c10_fallback_relevance.1 "alpha beta" "alpha only", ?_⟩
  refine c10_fallback_relevance.2 _ ?_
  intro i hi
  rw [List.mem_singleton] at hi
  subst hi
  exact ⟨"alpha beta", "alpha only", rfl⟩

end SIQ
